import Mathlib

/-!
Verification of the Videdit-API segment-rendering pipeline.

Shallow embedding of the repository's two source files:
  * `processor.py` — `parse_time`, `generate_audio_sync`, `load_and_heal_json`,
    `render_batch`, `process_video_task`;
  * `bot.py` — `download_fallback_slow`, `download_from_link`, `clean_up`,
    `queue_worker`, `stop_all`, and the temp-path layout.

Modelling conventions:
  * Python floats (clip durations, timestamps) are modelled as `ℚ`, exact at
    every concrete input used below.
  * The file system is a list of path strings; external tools (moviepy,
    ffmpeg, aria2, the TTS service, the chat transport) are modelled by
    environment records holding their observable outcomes.
  * Fallible code returns `Except String` / `Bool` exactly where the Python
    raises / returns a status.
-/

attribute [local semireducible] Rat.add Rat.sub Rat.mul Rat.inv Rat.ofScientific

namespace Videdit

/-- Python `\s` whitespace (ASCII range), as used by `str.strip`, `str.split`
and the healing regexes in `processor.py`. -/
def isPyWs (c : Char) : Bool :=
  c = ' ' ∨ c = '\t' ∨ c = '\n' ∨ c = '\r' ∨ c.toNat = 11 ∨ c.toNat = 12

/-- Python `str.strip()`: drop whitespace from both ends. -/
def pyStrip (cs : List Char) : List Char :=
  ((cs.dropWhile isPyWs).reverse.dropWhile isPyWs).reverse

/-- Python `time_str.split(':')` (note: `".".split(":") = ["."]`,
`"".split(":") = [""]`). -/
def splitOnColon : List Char → List (List Char)
  | [] => [[]]
  | c :: rest =>
    let r := splitOnColon rest
    if c = ':' then [] :: r
    else
      match r with
      | h :: t => (c :: h) :: t
      | [] => [[c]]

/-- Numeric value of a digit run (caller guarantees digits). -/
def digitsVal (cs : List Char) : ℕ :=
  cs.foldl (fun a c => 10 * a + (c.toNat - 48)) 0

/-- Model of Python `int(str)` restricted to the forms exercised here:
an optional sign followed by one or more decimal digits; anything else
raises (returns `none`).  (CPython additionally strips whitespace and allows
underscores; those inputs never occur in the claims below.) -/
def pyInt (cs : List Char) : Option ℤ :=
  match cs with
  | '-' :: ds => if ds ≠ [] ∧ ds.all Char.isDigit then some (-(digitsVal ds : ℤ)) else none
  | '+' :: ds => if ds ≠ [] ∧ ds.all Char.isDigit then some (digitsVal ds : ℤ) else none
  | ds => if ds ≠ [] ∧ ds.all Char.isDigit then some (digitsVal ds : ℤ) else none

/-- Fractional value of a digit run read after the decimal point. -/
def fracVal (cs : List Char) : ℚ :=
  cs.foldr (fun c a => ((c.toNat - 48 : ℕ) + a) / 10) 0

/-- Model of Python `float(str)` restricted to the forms exercised here:
optional sign, then digits with an optional single `'.'` (at least one digit
overall, `"1."` and `".5"` allowed); no exponent forms.  Anything else raises
(returns `none`). -/
def pyFloatCore (cs : List Char) : Option ℚ :=
  match cs.splitOn '.' with
  | [ds] => if ds ≠ [] ∧ ds.all Char.isDigit then some (digitsVal ds : ℚ) else none
  | [ds, fs] =>
    if (ds ≠ [] ∨ fs ≠ []) ∧ ds.all Char.isDigit ∧ fs.all Char.isDigit then
      some ((digitsVal ds : ℚ) + fracVal fs)
    else none
  | _ => none

/-- Python `float(str)` with optional sign. -/
def pyFloat (cs : List Char) : Option ℚ :=
  match cs with
  | '-' :: rest => (pyFloatCore rest).map (fun q => -q)
  | '+' :: rest => pyFloatCore rest
  | _ => pyFloatCore cs

/-- `processor.py:parse_time`: split on `':'`; three parts are read as
`int*3600 + int*60 + float`, two parts as `int*60 + float`; any parse
exception, and any other number of parts, yields `0`. -/
def parse_time (time_str : String) : ℚ :=
  match splitOnColon time_str.data with
  | [a, b, c] =>
    match pyInt a, pyInt b, pyFloat c with
    | some h, some m, some s => (h : ℚ) * 3600 + (m : ℚ) * 60 + s
    | _, _, _ => 0
  | [a, b] =>
    match pyInt a, pyFloat b with
    | some m, some s => (m : ℚ) * 60 + s
    | _, _ => 0
  | _ => 0

/-! ### JSON auto-heal loader (`processor.py:load_and_heal_json`)

`json.loads` is the Python standard library (an external collaborator from
the point of view of this repository); it is modelled as a parameter
`parse : String → Except String α` whose `.error` value carries the parser's
diagnostic message.  The two healing substitutions are modelled concretely.
-/

/-- Pass 2 substitution: `re.sub(r'[\x00-\x1f\x7f]', ' ', content)` —
replace every C0 control character and DEL by a space. -/
def stripControls (s : String) : String :=
  String.mk (s.data.map (fun c => if c.toNat ≤ 31 ∨ c.toNat = 127 then ' ' else c))

/-- The literal characters `"explanation_text"` (with the double quotes). -/
def keyLit : List Char := '\"' :: ("explanation_text".data ++ ['\"'])

/-- Match a literal character sequence at the head of the input, returning
the remainder on success. -/
def dropLit : List Char → List Char → Option (List Char)
  | [], cs => some cs
  | _ :: _, [] => none
  | l :: ls, c :: cs => if c = l then dropLit ls cs else none

/-- Match the first regex group `("explanation_text"\s*:\s*")` at the head of
the input.  Returns the matched text and the remainder. -/
def matchKeyOpen (cs : List Char) : Option (List Char × List Char) :=
  match dropLit keyLit cs with
  | none => none
  | some r1 =>
    let ws1 := r1.takeWhile isPyWs
    let r2 := r1.dropWhile isPyWs
    match r2 with
    | ':' :: r3 =>
      let ws2 := r3.takeWhile isPyWs
      let r4 := r3.dropWhile isPyWs
      match r4 with
      | '\"' :: r5 => some (keyLit ++ ws1 ++ ':' :: ws2 ++ ['\"'], r5)
      | _ => none
    | _ => none

/-- Does the third regex group `("\s*[,}])` match at the head of the input?
(The non-greedy `(.*?)` stops at the first position where this matches.) -/
def isCloseAt (cs : List Char) : Bool :=
  match cs with
  | '\"' :: rest =>
    match rest.dropWhile isPyWs with
    | d :: _ => d = ',' ∨ d = '\x7d'
    | [] => false
  | _ => false

/-- Length of the text matched by the close group `("\s*[,}])` at the head of
the input (the quote, the whitespace run, and the delimiter). -/
def closerLenAt (cs : List Char) : ℕ :=
  match cs with
  | _ :: rest => 2 + (rest.takeWhile isPyWs).length
  | [] => 0

/-- `m.group(2).replace('"', '\\"')`: escape every quote in the captured
narration text. -/
def escBody : List Char → List Char
  | [] => []
  | c :: cs => if c = '\"' then '\\' :: '\"' :: escBody cs else c :: escBody cs

/-- One left-to-right, non-overlapping `re.sub` scan for the pattern
`("explanation_text"\s*:\s*")(.*?)("\s*[,}])` with DOTALL, replacing the
middle group by its quote-escaped form.  Fuel-driven so the recursion is
structural; the caller supplies `fuel = length` which is always sufficient
because every step consumes at least one character. -/
def healFromF : ℕ → List Char → List Char
  | 0, cs => cs
  | _ + 1, [] => []
  | fuel + 1, c :: cs =>
    match matchKeyOpen (c :: cs) with
    | some (g1, r1) =>
      match (List.range r1.length).find? (fun i => isCloseAt (r1.drop i)) with
      | some i =>
        let k := closerLenAt (r1.drop i)
        g1 ++ escBody (r1.take i) ++ (r1.drop i).take k ++ healFromF fuel (r1.drop (i + k))
      | none => c :: healFromF fuel cs
    | none => c :: healFromF fuel cs

/-- Pass 3 substitution: escape unescaped quotes inside every
`"explanation_text": "…"` value. -/
def escapeQuotesInField (s : String) : String :=
  String.mk (healFromF s.data.length s.data)

/-- The healed content that the second `json.loads` attempt sees:
control characters stripped, then narration-field quotes escaped. -/
def healedContent (content : String) : String :=
  escapeQuotesInField (stripControls content)

/-- The fixed message of the `ValueError` raised when healing fails. -/
def CRITICAL_JSON_MSG : String := "❌ Critical JSON Error: Could not auto-fix file."

/-- `processor.py:load_and_heal_json`: strict parse; on failure strip
control characters, escape quotes in the narration field, re-parse once;
on failure again raise `ValueError` with the fixed message above. -/
def load_and_heal_json {α : Type} (parse : String → Except String α)
    (content : String) : Except String α :=
  match parse content with
  | Except.ok v => Except.ok v
  | Except.error _ =>
    match parse (healedContent content) with
    | Except.ok v => Except.ok v
    | Except.error _ => Except.error CRITICAL_JSON_MSG

/-! ### Segments, temp-file paths, audio synthesis -/

/-- One record of the segment map (`map.json`).  Fields are `None` when the
key is absent; `id` is kept stringly (a JSON number formats the same way in
the f-strings that use it). -/
structure Segment where
  id : Option String
  start_time : Option String
  end_time : Option String
  explanation_text : Option String
deriving DecidableEq

instance : Inhabited Segment := ⟨⟨none, none, none, none⟩⟩

/-- `temp_dir` of `process_video_task` / `TEMP_AUDIO` of `bot.py`. -/
def TEMP_DIR : String := "temp_audio"

def DOWNLOAD_DIR : String := "downloads"

def OUTPUT_DIR : String := "outputs"

def BATCH_SIZE : ℕ := 10

/-- `f"{temp_dir}/audio_{key}.wav"`. -/
def audioPathOf (key : String) : String := TEMP_DIR ++ "/audio_" ++ key ++ ".wav"

/-- Audio key used in phase A of `process_video_task`: `seg.get('id', i)`
with the global enumeration index `i` as the default. -/
def audioKeyA (seg : Segment) (i : ℕ) : String := seg.id.getD (Nat.repr i)

/-- Audio key used in `render_batch`: `seg.get('id', f'b{batch_index}_{i}')`
with the batch-local index `i` as the default. -/
def audioKeyB (seg : Segment) (batch_index i : ℕ) : String :=
  seg.id.getD ("b" ++ Nat.repr batch_index ++ "_" ++ Nat.repr i)

/-- `f"{temp_dir}/batch_{batch_index}.mp4"` (the `os.path.abspath` prefix is
constant within a process and omitted). -/
def batchPath (batch_index : ℕ) : String :=
  TEMP_DIR ++ "/batch_" ++ Nat.repr batch_index ++ ".mp4"

/-- `f"{temp_dir}/inputs.txt"`, the ffmpeg concat manifest. -/
def listFilePath : String := TEMP_DIR ++ "/inputs.txt"

/-- `os.path.join(DOWNLOAD_DIR, f"{user_id}_input.mp4")` from `queue_worker`. -/
def inputVideoPath (user_id : ℕ) : String :=
  DOWNLOAD_DIR ++ "/" ++ Nat.repr user_id ++ "_input.mp4"

/-- `os.path.join(DOWNLOAD_DIR, f"{uid}_{timestamp}_map.json")` from
`handle_doc` (the collector). -/
def mapFilePath (user_id timestamp : ℕ) : String :=
  DOWNLOAD_DIR ++ "/" ++ Nat.repr user_id ++ "_" ++ Nat.repr timestamp ++ "_map.json"

/-- `os.path.join(OUTPUT_DIR, f"{filename}.mp4")`. -/
def outputPathOf (filename : String) : String := OUTPUT_DIR ++ "/" ++ filename ++ ".mp4"

/-- `os.path.join(OUTPUT_DIR, f"{filename}.jpg")` (the thumbnail). -/
def thumbPathOf (filename : String) : String := OUTPUT_DIR ++ "/" ++ filename ++ ".jpg"

/-- `processor.py:generate_audio_sync`, with the external TTS call abstracted
to its observable outcome `ttsOk` (HTTP 200 and a decodable payload, in which
case the file is written): empty or whitespace-only text returns `False`
before any network call is made. -/
def generate_audio_sync (ttsOk : Bool) (text : String) : Bool :=
  if pyStrip text.data = [] then false else ttsOk

/-! ### The per-segment ratio analysis and `render_batch` -/

/-- moviepy `clip.subclipped(start_t, end_t)` duration. -/
def subclippedDur (start_t end_t : ℚ) : ℚ := end_t - start_t

/-- Which branch of the ratio analysis produced a clip. -/
inductive ClipMode
  | trim
  | slow
  | loop
deriving DecidableEq

/-- One clip appended to `processed_clips`: the (global) index of its
segment, the branch taken, the number of loop copies laid down (1 when no
`vfx.Loop` was applied), and the duration of the finished chunk
(`with_audio` leaves duration unchanged). -/
structure RenderedClip where
  segIdx : ℕ
  mode : ClipMode
  loops : ℤ
  duration : ℚ
deriving DecidableEq

/-- The ratio analysis of `render_batch` (`processor.py` lines 111–124) for
one segment with audio duration `A` and video-slice duration `V`.
`int(ratio) + 1` is written `⌊ratio⌋ + 1`, equal to it because the branch
has `ratio > 1 > 0`. -/
def clipForSeg (segIdx : ℕ) (A V : ℚ) : RenderedClip :=
  let r := A / V
  if 1 < r then
    if 3/2 < r then
      -- vfx.Loop(n = int(r)+1), then subclipped(0, A)
      ⟨segIdx, ClipMode.loop, ⌊r⌋ + 1, A⟩
    else
      -- vfx.MultiplySpeed(1/r): duration becomes V / (1/r)
      ⟨segIdx, ClipMode.slow, 1, V / (1 / r)⟩
  else
    -- subclipped(0, audio_clip.duration)
    ⟨segIdx, ClipMode.trim, 1, A⟩

/-- External outcomes consumed by one `render_batch` call.  `audioDur p` is
the duration moviepy reports for the audio file at path `p`, `none` when no
file exists there (`os.path.exists` false → `continue`).  `clipErr i` is
true when moviepy raises while building the clip of the segment with global
index `i` (the per-segment `except` branch: clip dropped, loop continues).
`stopAtSeg` is the first poll of `stop_signal` that reads true — poll `0`
is the check at function entry, poll `i + 1` the check before loop
iteration `i`; `none` when the flag stays false.  `writeOk` is false when
`write_videofile` raises (codec or disk error, or the stop signal observed
inside the progress callback). -/
structure RenderEnv where
  audioDur : String → Option ℚ
  clipErr : ℕ → Bool
  stopAtSeg : Option ℕ
  writeOk : Bool

/-- One iteration of the segment loop of `render_batch` (the body guarded by
the per-segment `try`): `none` when the segment contributes no clip.
`offset` is the position of the batch within the full map, used only to
record global segment indices. -/
def segClip (env : RenderEnv) (batch_index offset i : ℕ) (seg : Segment) :
    Option RenderedClip :=
  match env.audioDur (audioPathOf (audioKeyB seg batch_index i)) with
  | none => none
  | some A =>
    if env.clipErr (offset + i) then none
    else
      let start_t := parse_time (seg.start_time.getD "0:00")
      let end_t := parse_time (seg.end_time.getD "0:00")
      if start_t ≥ end_t then none
      else
        let V := subclippedDur start_t end_t
        if V < 1/10 then none
        else some (clipForSeg (offset + i) A V)

/-- Was the stop signal observed by this `render_batch` call?  The flag is
polled at entry (poll `0`) and before each of the `numSegs` loop iterations
(polls `1 … numSegs`); a first-true poll beyond those is never executed by
this call. -/
def renderStopHit (stopAtSeg : Option ℕ) (numSegs : ℕ) : Bool :=
  match stopAtSeg with
  | some k => decide (k ≤ numSegs)
  | none => false

/-- `processor.py:render_batch` on one batch.  The result is `none` exactly
when the Python returns `None` (stop signal observed — the raised stop
exception is caught by the function's own `except` —, zero usable clips, or
`write_videofile` raised) and `some clips` when the batch file was written,
listing the clips concatenated into it. -/
def render_batch (env : RenderEnv) (batch_index offset : ℕ)
    (segments : List Segment) : Option (List RenderedClip) :=
  if renderStopHit env.stopAtSeg segments.length then none
  else
    let clips := segments.enum.filterMap (fun p => segClip env batch_index offset p.1 p.2)
    if clips = [] then none
    else if env.writeOk then some clips else none

/-! ### Batch partitioning and phase A -/

/-- Python `range(start, stop, step)`, fuel-driven so the recursion is
structural; every iteration advances `start` by at least one, so any
`fuel ≥ stop - start` gives the exact range. -/
def pyRangeF : ℕ → ℕ → ℕ → ℕ → List ℕ
  | 0, _, _, _ => []
  | fuel + 1, start, stop, step =>
    if 0 < step ∧ start < stop then start :: pyRangeF fuel (start + step) stop step
    else []

/-- Python `range(start, stop, step)` for a non-negative step. -/
def pyRange (start stop step : ℕ) : List ℕ := pyRangeF stop start stop step

/-- The batch partition of `process_video_task`:
`for i in range(0, total, BATCH_SIZE): segments[i : i + BATCH_SIZE]`. -/
def batchesOf {α : Type} (segments : List α) : List (List α) :=
  (pyRange 0 segments.length BATCH_SIZE).map
    (fun i => (segments.drop i).take BATCH_SIZE)

/-- `total_batches = (total + BATCH_SIZE - 1) // BATCH_SIZE` from
`process_video_task`. -/
def totalBatches (total : ℕ) : ℕ := (total + BATCH_SIZE - 1) / BATCH_SIZE

/-- Phase A of `process_video_task` (audio generation) as its effect on the
set of existing files: for each segment in map order, if no audio file
exists at its key's path, call `generate_audio_sync`, which deposits a file
there exactly when it returns `True`.  `ttsOk i` abstracts the TTS
collaborator's outcome for the call made for global segment `i`. -/
def phaseA (ttsOk : ℕ → Bool) : ℕ → List Segment → List String → List String
  | _, [], fs => fs
  | i, seg :: rest, fs =>
    let p := audioPathOf (audioKeyA seg i)
    let fs2 :=
      if p ∈ fs then fs
      else if generate_audio_sync (ttsOk i) (seg.explanation_text.getD "") then p :: fs
      else fs
    phaseA ttsOk (i + 1) rest fs2

/-- External outcomes for one full, uncancelled run of phases A and B of
`process_video_task`: TTS success per global segment index, the duration
moviepy reports per audio file, moviepy clip errors per global segment
index, and `write_videofile` success per batch index. -/
structure RunEnv where
  ttsOk : ℕ → Bool
  audioDurOf : String → ℚ
  clipErr : ℕ → Bool
  writeOk : ℕ → Bool

/-- Phases A and B of `process_video_task` for a job that starts with no
cached audio files and never sees the stop signal: the `render_batch`
result of each batch, in batch order. -/
def runSegmentsFresh (env : RunEnv) (segments : List Segment) :
    List (Option (List RenderedClip)) :=
  let fs := phaseA env.ttsOk 0 segments []
  (batchesOf segments).enum.map (fun p =>
    render_batch
      { audioDur := fun q => if q ∈ fs then some (env.audioDurOf q) else none
        clipErr := env.clipErr
        stopAtSeg := none
        writeOk := env.writeOk (p.1 + 1) }
      (p.1 + 1) (p.1 * BATCH_SIZE) p.2)

/-! ### Resilient downloader (`bot.py`) -/

/-- External outcomes of one `download_fallback_slow` call.  `connectFails`:
`session.get` itself raises (network failure before any response).
`status`: the HTTP status of the response.  `chunks`: the body chunks the
server would deliver (`iter_chunked(1024*1024)`).  `stopAt`: the first
chunk index at which the polled `stop_signal` reads true (the poll happens
after chunk `k` is received and before it is written); `none` when the
flag stays false.  `errAt = some k` (`k < chunks.length`): an exception is
raised inside the streaming loop while handling chunk `k` (stream error,
write error, progress-update error) — caught by the function's `except`,
which returns `False`. -/
structure FallbackEnv where
  connectFails : Bool
  status : ℕ
  chunks : List (List ℕ)
  stopAt : Option ℕ
  errAt : Option ℕ

/-- Cap a halt index: `optMin o d` is the number of loop iterations that
complete before the halt described by `o`, out of `d` total. -/
def optMin (o : Option ℕ) (d : ℕ) : ℕ :=
  match o with
  | some k => min k d
  | none => d

/-- Does a halt whose first index is `o` fail to trigger within `len`
iterations? -/
def noHalt (o : Option ℕ) (len : ℕ) : Bool :=
  match o with
  | some k => decide (len ≤ k)
  | none => true

/-- The number of chunks `download_fallback_slow` writes before it stops,
errors, or finishes. -/
def fbWrittenCount (env : FallbackEnv) : ℕ :=
  optMin env.stopAt (optMin env.errAt env.chunks.length)

/-- `bot.py:download_fallback_slow` as a function from outcomes and the
prior destination-file content to (return value, destination content
afterwards); `none` models "no file at the destination".  The destination
is opened in `wb` mode (truncating) only after a 200 status; chunks are
written in order; when the stop signal is polled true, or the loop raises,
the function returns `False` leaving the file as written so far.  No
failure path deletes the file. -/
def download_fallback_slow (env : FallbackEnv) (dest : Option (List ℕ)) :
    Bool × Option (List ℕ) :=
  if env.connectFails then (false, dest)
  else if env.status ≠ 200 then (false, dest)
  else
    (noHalt env.stopAt env.chunks.length && noHalt env.errAt env.chunks.length,
     some ((env.chunks.take (fbWrittenCount env)).flatten))

/-- External outcomes of the primary (aria2) attempt in
`download_from_link`.  `launchFails`: `create_subprocess_exec` raises
(binary missing, permission error), caught by the outer `except`.
`numLines`: how many stdout lines the process produces.  `stopAt`: the
first loop poll of `stop_signal` reading true; poll `k` precedes the read
of line `k`, and polls `0 … numLines` are executed (the last one before
the read that returns EOF and breaks the loop).  `exitCode`: the process
exit status.  `leaves`: the content the aria2 process left at the
destination path (`none` when it wrote nothing); on exit code `0` with a
file present this is the complete download. -/
structure Aria2Env where
  launchFails : Bool
  numLines : ℕ
  stopAt : Option ℕ
  exitCode : ℤ
  leaves : Option (List ℕ)

/-- Outcomes for one `download_from_link` call. -/
structure DownloadEnv where
  aria2 : Aria2Env
  fallback : FallbackEnv

/-- Did the aria2 read loop observe the stop signal?  (Polls `0 … numLines`
are executed.) -/
def ariaStopHit (stopAt : Option ℕ) (numLines : ℕ) : Bool :=
  match stopAt with
  | some k => decide (k ≤ numLines)
  | none => false

/-- `bot.py:download_from_link`: pre-clear any stale destination file, run
aria2 while reading its progress stream, and — on a non-zero exit, a
missing destination file, or a launch failure — run
`download_fallback_slow`, exactly where the source does.  (A failure of the
`status_msg.edit` before the fallback is caught by the outer `except`,
whose handler runs the same fallback; both paths are the final branch
below.)  Returns (return value, destination content, number of fallback
invocations).  Every source path catches exceptions and returns a boolean,
so the model is total. -/
def download_from_link (env : DownloadEnv) :
    Bool × Option (List ℕ) × ℕ :=
  if env.aria2.launchFails then
    -- aria2 never started; the destination was pre-cleared
    let r := download_fallback_slow env.fallback none
    (r.1, r.2, 1)
  else if ariaStopHit env.aria2.stopAt env.aria2.numLines then
    -- process.kill(): return False with whatever aria2 had written
    (false, env.aria2.leaves, 0)
  else if env.aria2.exitCode = 0 ∧ env.aria2.leaves.isSome then
    (true, env.aria2.leaves, 0)
  else
    let r := download_fallback_slow env.fallback env.aria2.leaves
    (r.1, r.2, 1)

/-! ### File-system model and the task pipeline -/

/-- `os.remove p` on a set-of-paths file system. -/
def fsRemove (fs : List String) (p : String) : List String :=
  fs.filter (fun q => q != p)

/-- Creation (or overwrite) of the file at `p`. -/
def fsAdd (fs : List String) (p : String) : List String :=
  if p ∈ fs then fs else p :: fs

/-- `bot.py:clean_up`: best-effort `os.remove` over a list of paths. -/
def clean_up (fs : List String) (paths : List String) : List String :=
  paths.foldl fsRemove fs

/-- The message of the exceptions raised on observing the stop signal. -/
def STOP_MSG : String := "⛔ Task Stopped"

/-- The message raised when no batch produced a file. -/
def NO_SEGMENTS_MSG : String := "No video segments generated."

/-- Has a monotonic flag whose first true poll is `o` been observed by poll
`b`? -/
def stopHitBy (o : Option ℕ) (b : ℕ) : Bool :=
  match o with
  | some k => decide (k ≤ b)
  | none => false

/-- External outcomes for one `process_video_task` call.  `stopAtAudio`:
the first phase-A poll of `stop_signal` reading true (poll `i` precedes
segment `i`); `stopAtBatch`: the first phase-B loop poll reading true
(poll `b` precedes 0-based batch `b`); `stopDuringBatch b`: the signal
became true while `render_batch` ran batch `b`, so the `None` it returned
is followed by a re-check that raises.  `mergeExitCode`: the exit status
of the ffmpeg concat run — the source never reads it.
`mergeWritesOutput`: whether that run left a file at the output path (a
failed run may leave none, or a partial file). -/
structure TaskEnv where
  run : RunEnv
  stopAtAudio : Option ℕ
  stopAtBatch : Option ℕ
  stopDuringBatch : ℕ → Bool
  mergeExitCode : ℤ
  mergeWritesOutput : Bool

/-- Phase A of `process_video_task` including its per-segment stop poll:
segments before the first true poll are processed, then the stop exception
is raised. -/
def phaseAWithStop (run0 : RunEnv) (stopAtAudio : Option ℕ) (segments : List Segment)
    (fs : List String) : Except String Unit × List String :=
  match stopAtAudio with
  | some k =>
    if k < segments.length then
      (Except.error STOP_MSG, phaseA run0.ttsOk 0 (segments.take k) fs)
    else (Except.ok (), phaseA run0.ttsOk 0 segments fs)
  | none => (Except.ok (), phaseA run0.ttsOk 0 segments fs)

/-- The phase-B loop of `process_video_task` over the enumerated batches:
threads the file system, accumulates `batch_files`, and raises the stop
exception where the source does.  `render_batch` reads the live file
system for its `os.path.exists` checks and adds the batch file exactly
when it returns a path. -/
def runBatchesFS (run0 : RunEnv) (stopAtBatch : Option ℕ) (stopDuringBatch : ℕ → Bool) :
    List (ℕ × List Segment) → List String → List String →
    Except String (List String) × List String
  | [], fs, acc => (Except.ok acc, fs)
  | (b, bsegs) :: rest, fs, acc =>
    if stopHitBy stopAtBatch b then (Except.error STOP_MSG, fs)
    else
      match render_batch
          { audioDur := fun q => if q ∈ fs then some (run0.audioDurOf q) else none
            clipErr := run0.clipErr
            stopAtSeg := if stopDuringBatch b then some 0 else none
            writeOk := run0.writeOk (b + 1) }
          (b + 1) (b * BATCH_SIZE) bsegs with
      | some _ =>
        runBatchesFS run0 stopAtBatch stopDuringBatch rest
          (fsAdd fs (batchPath (b + 1))) (acc ++ [batchPath (b + 1)])
      | none =>
        if stopDuringBatch b then (Except.error STOP_MSG, fs)
        else runBatchesFS run0 stopAtBatch stopDuringBatch rest fs acc

/-- `processor.py:process_video_task` as its effect on the file system
together with its outcome: the returned `output_path`, or the message of
the exception it raises.  The segment list is the parsed map
(`load_and_heal_json` is modelled separately; its failure is raised before
any file is touched and is handled at the worker level).  The
progress-monitor task reads shared state and sends messages only; it
never touches the file system. -/
def process_video_task (env : TaskEnv) (segments : List Segment)
    (output_path : String) (fs0 : List String) :
    Except String String × List String :=
  match phaseAWithStop env.run env.stopAtAudio segments fs0 with
  | (Except.error e, fs) => (Except.error e, fs)
  | (Except.ok _, fs1) =>
    match runBatchesFS env.run env.stopAtBatch env.stopDuringBatch
        (batchesOf segments).enum fs1 [] with
    | (Except.error e, fs) => (Except.error e, fs)
    | (Except.ok batch_files, fs2) =>
      if batch_files = [] then (Except.error NO_SEGMENTS_MSG, fs2)
      else
        -- merge: write inputs.txt, run ffmpeg (its exit status is never
        -- read), delete the batch files and the manifest, return the path
        let fs3 := fsAdd fs2 listFilePath
        let fs4 := if env.mergeWritesOutput then fsAdd fs3 output_path else fs3
        let fs5 := clean_up fs4 batch_files
        let fs6 := fsRemove fs5 listFilePath
        (Except.ok output_path, fs6)

/-! ### Worker loop, terminal messages, `stop_all` -/

/-- Is `pat` a contiguous substring of the second list (`"Stopped" in msg`)? -/
def listStartsWith : List Char → List Char → Bool
  | [], _ => true
  | _ :: _, [] => false
  | p :: ps, c :: cs => p = c && listStartsWith ps cs

/-- Python `pat in s` on character lists. -/
def containsSub (pat : List Char) : List Char → Bool
  | [] => listStartsWith pat []
  | c :: cs => listStartsWith pat (c :: cs) || containsSub pat cs

/-- The distinct stop notice of `queue_worker`'s handler. -/
def STOPPED_NOTICE : String := "🛑 **Process Stopped by Admin.**"

/-- The generic error notice of `queue_worker`'s handler. -/
def genericError (msg : String) : String := "❌ **Error:** " ++ msg

/-- The success caption of `send_document`. -/
def SUCCESS_NOTICE (filename : String) : String := "✅ **" ++ filename ++ "** is ready!"

/-- `queue_worker`'s terminal-message selection: the stop notice when the
exception message contains `"Stopped"`, the generic error otherwise. -/
def terminalErrorMessage (e : String) : String :=
  if containsSub "Stopped".data e.data then STOPPED_NOTICE else genericError e

/-- A job identity as enqueued: submitter and enqueue timestamp
(`task_id = f"{uid}_{timestamp}"`). -/
structure Job where
  user_id : ℕ
  timestamp : ℕ
deriving DecidableEq

/-- One dequeued task's routing data. -/
structure TaskData where
  user_id : ℕ
  timestamp : ℕ
  filename : String
  fromLink : Bool

/-- External outcomes for one `queue_worker` iteration.  `mapParses`: the
map survives `load_and_heal_json`.  `dlSucceeds`: `download_from_link`
returned `True`; `dlLeavesFile`: a failed link download left a (partial)
file at the input path; `dlStopped`: the download returned `False` because
the stop signal was observed during it.  `tgDlOk`: the Telegram download
completes.  `stopAfterDl`: the explicit stop check after the download
reads true.  `thumbOk`: the ffmpeg thumbnail run produces a file (given
an output to read).  `uploadOk`: `send_document` succeeds given that the
output file exists; when the file is missing it raises (the stand-in
message below carries no `"Stopped"`, as a transport error text would
not). -/
structure WorkerEnv where
  task : TaskEnv
  segments : List Segment
  mapParses : Bool
  dlSucceeds : Bool
  dlLeavesFile : Bool
  dlStopped : Bool
  tgDlOk : Bool
  stopAfterDl : Bool
  thumbOk : Bool
  uploadOk : Bool

/-- The portion of the `queue_worker` try-body after the download: the
post-download stop check, `process_video_task`, the thumbnail run, and the
upload. -/
def workerAfterDl (env : WorkerEnv) (task : TaskData) (fs : List String) :
    Except String Unit × List String :=
  if env.stopAfterDl then (Except.error STOP_MSG, fs)
  else if ¬ env.mapParses then (Except.error CRITICAL_JSON_MSG, fs)
  else
    match process_video_task env.task env.segments (outputPathOf task.filename) fs with
    | (Except.error e, fs2) => (Except.error e, fs2)
    | (Except.ok _, fs2) =>
      let fs3 :=
        if env.thumbOk ∧ outputPathOf task.filename ∈ fs2 then
          fsAdd fs2 (thumbPathOf task.filename)
        else fs2
      if outputPathOf task.filename ∈ fs3 then
        if env.uploadOk then (Except.ok (), fs3)
        else (Except.error "send_document failed", fs3)
      else (Except.error "no such file or directory", fs3)

/-- The tail of one `queue_worker` iteration, from the try-result: on
success the handler deletes the status message and runs
`clean_up([json_path, input, output, thumb])`; on any exception it picks
the terminal message by the `"Stopped"` test and runs
`clean_up([json_path, input])`. -/
def workerFinish (task : TaskData) (r : Except String Unit × List String) :
    String × List String :=
  match r with
  | (Except.ok _, fs) =>
    (SUCCESS_NOTICE task.filename,
     clean_up fs [mapFilePath task.user_id task.timestamp, inputVideoPath task.user_id,
       outputPathOf task.filename, thumbPathOf task.filename])
  | (Except.error e, fs) =>
    (terminalErrorMessage e, clean_up fs [mapFilePath task.user_id task.timestamp,
      inputVideoPath task.user_id])

/-- The body of one `queue_worker` iteration for one dequeued task: the
terminal message sent to the submitter and the final file system.  `fs0`
is the file system at dequeue time (the collector has already saved the
map file). -/
def queue_worker_once (env : WorkerEnv) (task : TaskData) (fs0 : List String) :
    String × List String :=
  workerFinish task
    (if task.fromLink then
      if env.dlSucceeds then workerAfterDl env task (fsAdd fs0 (inputVideoPath task.user_id))
      else (Except.error "Download failed.",
            if env.dlLeavesFile then fsAdd fs0 (inputVideoPath task.user_id) else fs0)
    else
      if env.tgDlOk then workerAfterDl env task (fsAdd fs0 (inputVideoPath task.user_id))
      else (Except.error "Telegram download error", fs0))

/-- `bot.py:stop_all`: drain the queue via `get_nowait` until it is empty;
if a task is being processed, set its shared `stop_signal` (a monotonic
flag). -/
def stop_all {α : Type} (_queue : List α) (is_processing : Bool) (stop_signal : Bool) :
    List α × Bool :=
  ([], if is_processing then true else stop_signal)

/-! ### Per-job artifact path families (claim C7) -/

/-- The audio path a job uses for a given segment and phase-A index.
`process_video_task` receives no job identity (`bot.py` passes `task_id`
as a sixth argument, but the `processor.py` signature has no such
parameter), so the path cannot depend on the job. -/
def jobAudioPath (_j : Job) (seg : Segment) (i : ℕ) : String :=
  audioPathOf (audioKeyA seg i)

/-- The intermediate batch path a job uses; job-independent in the source. -/
def jobBatchPath (_j : Job) (batch_index : ℕ) : String := batchPath batch_index

/-- The downloaded-input path; depends only on the submitter id. -/
def jobInputPath (j : Job) : String := inputVideoPath j.user_id

/-- The saved-map path; the only artifact path carrying the enqueue
timestamp. -/
def jobMapPath (j : Job) : String := mapFilePath j.user_id j.timestamp

/-! ### Claim-side definitions (stated from the claims' words, for claims
that are refuted or compared against the code) -/

/-- Claim C2's notion of a timestamp parseable as `H:MM:SS[.frac]` or
`MM:SS` (numeric components), following the specification's words. -/
def specTimeVal (s : String) : Option ℚ :=
  match splitOnColon s.data with
  | [a, b, c] =>
    match pyInt a, pyInt b, pyFloat c with
    | some h, some m, some sec => some ((h : ℚ) * 3600 + (m : ℚ) * 60 + sec)
    | _, _, _ => none
  | [a, b] =>
    match pyInt a, pyFloat b with
    | some m, some sec => some ((m : ℚ) * 60 + sec)
    | _, _ => none
  | _ => none

/-- Claim C2's skip condition on a segment, following the claim's words:
`start_time ≥ end_time`, a missing or unparseable timestamp, or empty /
whitespace-only narration text. -/
def segBadClaim (seg : Segment) : Bool :=
  (match seg.start_time.bind specTimeVal, seg.end_time.bind specTimeVal with
   | some a, some b => decide (a ≥ b)
   | _, _ => true) ||
  decide (pyStrip ((seg.explanation_text.getD "").data) = [])

instance {ε α : Type} [DecidableEq ε] [DecidableEq α] : DecidableEq (Except ε α) :=
  fun a b =>
    match a, b with
    | Except.ok x, Except.ok y => decidable_of_iff (x = y) (by simp)
    | Except.error x, Except.error y => decidable_of_iff (x = y) (by simp)
    | Except.ok _, Except.error _ => isFalse (fun h => Except.noConfusion h)
    | Except.error _, Except.ok _ => isFalse (fun h => Except.noConfusion h)

/-- Take/drop chunking, fuel-driven (any `fuel ≥ length` is exact, every
step dropping at least one element); used to reason about `batchesOf` by
induction. -/
def chunksF {α : Type} (B : ℕ) : ℕ → List α → List (List α)
  | _, [] => []
  | 0, _ :: _ => []
  | fuel + 1, a :: t =>
    if B = 0 then [] else (a :: t).take B :: chunksF B fuel ((a :: t).drop B)

/-! ### The claims as stated (for the claims refuted below) -/

/-- Claim C1 as stated: every segment with `ratio = A / V > 1.5` is looped
exactly `⌈ratio⌉` times and truncated to exactly duration `A`. -/
def C1_claimStatement : Prop :=
  ∀ (i : ℕ) (A V : ℚ), 0 < V → 3/2 < A / V →
    (clipForSeg i A V).loops = ⌈A / V⌉ ∧ (clipForSeg i A V).duration = A

/-- Claim C2 as stated: in every rendered batch of every fresh run, no
clip's segment satisfies the skip condition of `segBadClaim`. -/
def C2_claimStatement : Prop :=
  ∀ (env : RunEnv) (segments : List Segment) (b : ℕ) (clips : List RenderedClip)
    (c : RenderedClip),
    (runSegmentsFresh env segments)[b]? = some (some clips) →
    c ∈ clips →
    segBadClaim (segments.getD c.segIdx default) = false

/-- Claim C3 as stated: a failed download never leaves the destination path
referencing a partial file a caller could mistake for the complete
download. -/
def C3_claimStatement : Prop :=
  ∀ env : DownloadEnv, (download_from_link env).1 = false →
    (download_from_link env).2.1 = none ∨ (download_from_link env).2.1 = some []

/-- Claim C4 as stated: when the strict parse, the control-stripped
re-parse, and the quote-escaped re-parse all fail, the raised terminal
error's message contains the last parser's diagnostic. -/
def C4_claimStatement : Prop :=
  ∀ (α : Type) (parse : String → Except String α) (content : String)
    (e1 e2 e3 : String),
    parse content = Except.error e1 →
    parse (stripControls content) = Except.error e2 →
    parse (healedContent content) = Except.error e3 →
    ∃ msg, load_and_heal_json parse content = Except.error msg ∧
      containsSub e3.data msg.data = true

/-- The temporary artifacts claim C6 enumerates for one job. -/
def isJobArtifact (task : TaskData) (p : String) : Prop :=
  (∃ key, p = audioPathOf key) ∨ (∃ b, p = batchPath b) ∨ p = listFilePath ∨
  p = mapFilePath task.user_id task.timestamp ∨ p = inputVideoPath task.user_id

/-- Claim C6 as stated: on every exit path, every temporary artifact created
for the job (starting from an empty temp area, so every artifact present
was created by this job) has been removed when the worker finishes. -/
def C6_claimStatement : Prop :=
  ∀ (env : WorkerEnv) (task : TaskData) (p : String),
    isJobArtifact task p → p ∉ (queue_worker_once env task []).2

/-- Claim C7 as stated: distinct jobs never collide on disk — their audio,
batch, and input paths are pairwise disjoint. -/
def C7_claimStatement : Prop :=
  ∀ j₁ j₂ : Job, j₁ ≠ j₂ →
    (∀ (s₁ s₂ : Segment) (i₁ i₂ : ℕ), jobAudioPath j₁ s₁ i₁ ≠ jobAudioPath j₂ s₂ i₂) ∧
    (∀ b₁ b₂ : ℕ, jobBatchPath j₁ b₁ ≠ jobBatchPath j₂ b₂) ∧
    jobInputPath j₁ ≠ jobInputPath j₂

/-- Claim C9 as stated: whenever the merge step fails (non-zero ffmpeg exit
status), the job terminates as a failure — the submitter never receives the
success notice. -/
def C9_claimStatement : Prop :=
  ∀ (env : WorkerEnv) (task : TaskData) (fs0 : List String),
    env.task.mergeExitCode ≠ 0 →
    (queue_worker_once env task fs0).1 ≠ SUCCESS_NOTICE task.filename

/-- "The in-flight job was cancelled": some stop poll along the worker's
pipeline read true. -/
def jobCancelled (env : WorkerEnv) : Prop :=
  env.dlStopped = true ∨ env.stopAfterDl = true ∨
  env.task.stopAtAudio ≠ none ∨ env.task.stopAtBatch ≠ none

/-- Claim C10 as stated: `stop_all` empties the queue and flags the
in-flight job, and a cancelled in-flight job always terminates with the
distinct stop notice rather than a generic error. -/
def C10_claimStatement : Prop :=
  (∀ (q : List TaskData) (p f : Bool),
    (stop_all q p f).1 = [] ∧ (p = true → (stop_all q p f).2 = true)) ∧
  (∀ (env : WorkerEnv) (task : TaskData) (fs0 : List String),
    jobCancelled env → (queue_worker_once env task fs0).1 = STOPPED_NOTICE)

/-! ## Sanity checks on the embedding -/

/-- `parse_time` on the formats of the spec and on garbage. -/
theorem parse_time_examples :
    parse_time "0:10" = 10 ∧ parse_time "1:02:03.5" = 3723.5 ∧
    parse_time "bad" = 0 ∧ parse_time "" = 0 := by
  refine ⟨by decide, by decide, by decide, by decide⟩

/-- The auto-heal pass repairs an unescaped quote inside the narration
field and replaces control characters by spaces. -/
theorem heal_examples :
    healedContent "\x7b\"explanation_text\": \"he said \"hi\" loud\"\x7d" =
      "\x7b\"explanation_text\": \"he said \\\"hi\\\" loud\"\x7d" ∧
    stripControls "a\nb" = "a b" := by
  refine ⟨by decide, by decide⟩

/-! ## Claim C1 — loop count for `ratio > 1.5` -/

/-- C1 counterexample: at audio duration `A = 6` s and slice duration
`V = 3` s — the claim's own example, `ratio = 2.0 > 1.5` — the claim
demands `⌈2.0⌉ = 2` loop copies, but the code (`int(ratio) + 1`) lays down
3. -/
theorem C1_counterexample : ¬ C1_claimStatement := by
  intro h
  have hl := (h 0 6 3 (by decide) (by decide)).1
  have h3 : (clipForSeg 0 6 3).loops = 3 := by decide
  have hc : (⌈(6 : ℚ) / 3⌉ : ℤ) = 2 := by decide
  rw [h3, hc] at hl
  exact absurd hl (by decide)

/-- C1 amended: for `ratio = A / V > 1.5` (with the slice passing the 0.1 s
floor) the loop branch is taken with `int(ratio) + 1 = ⌊ratio⌋ + 1` copies —
equal to `⌈ratio⌉` exactly when the ratio is not an integer, and to
`ratio + 1` when it is — and the looped slice is then truncated to exactly
duration `A`; the truncation is well-formed because
`(⌊ratio⌋ + 1) · V > A`. -/
theorem C1_amended (i : ℕ) (A V : ℚ) (hV : 1/10 ≤ V) (hr : 3/2 < A / V) :
    (clipForSeg i A V).mode = ClipMode.loop ∧
    (clipForSeg i A V).loops = ⌊A / V⌋ + 1 ∧
    (clipForSeg i A V).duration = A ∧
    A < ((⌊A / V⌋ + 1 : ℤ) : ℚ) * V ∧
    (A / V = ((⌊A / V⌋ : ℤ) : ℚ) ∨ (⌊A / V⌋ + 1 : ℤ) = ⌈A / V⌉) := by
  have hV0 : (0 : ℚ) < V := lt_of_lt_of_le (by norm_num) hV
  have h1 : (1 : ℚ) < A / V := lt_trans (by norm_num) hr
  have hmode : clipForSeg i A V = ⟨i, ClipMode.loop, ⌊A / V⌋ + 1, A⟩ := by
    simp only [clipForSeg]
    rw [if_pos h1, if_pos hr]
  refine ⟨by rw [hmode], by rw [hmode], by rw [hmode], ?_, ?_⟩
  · have hfl : A / V < (⌊A / V⌋ : ℚ) + 1 := Int.lt_floor_add_one _
    have h2 := (div_lt_iff₀ hV0).mp hfl
    push_cast
    exact h2
  · by_cases hint : A / V = ((⌊A / V⌋ : ℤ) : ℚ)
    · exact Or.inl hint
    · refine Or.inr ?_
      have hlt : ((⌊A / V⌋ : ℤ) : ℚ) < A / V :=
        lt_of_le_of_ne (Int.floor_le _) (fun he => hint he.symm)
      have hup : ⌊A / V⌋ < ⌈A / V⌉ := by
        rw [Int.lt_ceil]
        exact hlt
      have hdn : ⌈A / V⌉ ≤ ⌊A / V⌋ + 1 := Int.ceil_le_floor_add_one _
      omega

/-- C1 witness: `A = 7`, `V = 2` (`ratio = 3.5`): loop branch, 4 copies,
truncated to 7 s. -/
theorem C1_amended_witness :
    (clipForSeg 5 7 2).mode = ClipMode.loop ∧
    (clipForSeg 5 7 2).loops = ⌊(7 : ℚ) / 2⌋ + 1 ∧
    (clipForSeg 5 7 2).duration = 7 ∧
    (7 : ℚ) < ((⌊(7 : ℚ) / 2⌋ + 1 : ℤ) : ℚ) * 2 ∧
    ((7 : ℚ) / 2 = ((⌊(7 : ℚ) / 2⌋ : ℤ) : ℚ) ∨ (⌊(7 : ℚ) / 2⌋ + 1 : ℤ) = ⌈(7 : ℚ) / 2⌉) :=
  C1_amended 5 7 2 (by decide) (by decide)

/-! ## Claim C4 — terminal parse error message -/

/-- C4 counterexample: with a parser that reports
`"Expecting value: line 1 column 1 (char 0)"` on every input, the error
raised for the unhealable map `"not json"` carries only the fixed message,
which does not contain that diagnostic. -/
theorem C4_counterexample : ¬ C4_claimStatement := by
  intro h
  obtain ⟨msg, hmsg, hsub⟩ :=
    h Unit (fun _ => Except.error "Expecting value: line 1 column 1 (char 0)") "not json"
      _ _ _ rfl rfl rfl
  have hload : load_and_heal_json
      (fun _ : String => (Except.error "Expecting value: line 1 column 1 (char 0)" :
        Except String Unit)) "not json" = Except.error CRITICAL_JSON_MSG := rfl
  rw [hload] at hmsg
  have hm : CRITICAL_JSON_MSG = msg := by injection hmsg
  rw [← hm] at hsub
  exact absurd hsub (by decide)

/-- C4 amended: whenever the strict parse and the parse of the healed
content both fail — in particular whenever the claim's three passes all
fail, the code's single re-parse reading exactly the pass-3 text — the
loader raises a terminal `ValueError` whose message is the fixed string
`CRITICAL_JSON_MSG`; the parser diagnostic is not part of that message
(it survives only as Python's implicit exception context). -/
theorem C4_amended {α : Type} (parse : String → Except String α) (content : String)
    (e1 e2 : String)
    (h1 : parse content = Except.error e1)
    (h2 : parse (healedContent content) = Except.error e2) :
    load_and_heal_json parse content = Except.error CRITICAL_JSON_MSG := by
  unfold load_and_heal_json
  rw [h1, h2]

/-- C4 witness: a parser failing with diagnostic `"Expecting value"` on a
concrete map. -/
theorem C4_amended_witness :
    load_and_heal_json
      (fun _ : String => (Except.error "Expecting value" : Except String Unit))
      "\x7b bad" = Except.error CRITICAL_JSON_MSG :=
  C4_amended _ _ "Expecting value" "Expecting value" rfl rfl

/-! ## Claim C5 — fallback exactly once, no raise -/

/-- The boolean result of the fallback does not depend on the prior content
of the destination file. -/
theorem fallback_fst_ignores_dest (env : FallbackEnv) (d d' : Option (List ℕ)) :
    (download_fallback_slow env d).1 = (download_fallback_slow env d').1 := by
  unfold download_fallback_slow
  split_ifs <;> rfl

/-- C5: when the aria2 process exits non-zero (with the read loop never
stopped), or fails to launch, the single-connection fallback runs exactly
once, and the call returns the fallback's boolean — `False` whenever the
fallback also fails.  Every source path catches its exceptions, which is
why the model is a total boolean function: the call never raises. -/
theorem C5_fallback_exactly_once (env : DownloadEnv)
    (h : env.aria2.launchFails = true ∨
         (ariaStopHit env.aria2.stopAt env.aria2.numLines = false ∧
          ¬ env.aria2.exitCode = 0)) :
    (download_from_link env).2.2 = 1 ∧
    (download_from_link env).1 = (download_fallback_slow env.fallback none).1 := by
  by_cases hlf : env.aria2.launchFails = true
  · unfold download_from_link
    rw [if_pos hlf]
    exact ⟨rfl, rfl⟩
  · rcases h with h | ⟨hstop, hexit⟩
    · exact absurd h hlf
    · unfold download_from_link
      rw [if_neg hlf, if_neg (by rw [hstop]; exact Bool.false_ne_true),
        if_neg (fun hc => hexit hc.1)]
      exact ⟨rfl, fallback_fst_ignores_dest _ _ _⟩

/-- C5 witness: aria2 exits with code 1; the fallback gets HTTP 404 and
fails; the call returns the fallback's `False` after exactly one fallback
attempt. -/
theorem C5_witness :
    (download_from_link ⟨⟨false, 2, none, 1, none⟩, ⟨false, 404, [], none, none⟩⟩).2.2 = 1 ∧
    (download_from_link ⟨⟨false, 2, none, 1, none⟩, ⟨false, 404, [], none, none⟩⟩).1 =
      (download_fallback_slow ⟨false, 404, [], none, none⟩ none).1 :=
  C5_fallback_exactly_once _ (Or.inr ⟨by decide, by decide⟩)

/-! ## Claim C3 — partial file at the destination on failure -/

/-- C3 counterexample: aria2 exits non-zero, the fallback is cancelled
after writing 1 of 2 chunks: the call returns `False` with the destination
holding the first chunk — a partial file, neither absent nor empty. -/
theorem C3_counterexample : ¬ C3_claimStatement := by
  intro h
  rcases h ⟨⟨false, 0, none, 1, none⟩, ⟨false, 200, [[1, 2], [3]], some 1, none⟩⟩ (by decide)
    with h1 | h1 <;> exact absurd h1 (by decide)

/-- C3 amended: no failure path deletes the destination file (only the
pre-download clear of a stale file removes anything); in particular, when
the fallback's streaming loop is interrupted by the stop signal after `k`
of more than `k` chunks, the call returns `False` and the destination is
left holding exactly the first `k` chunks — a partial file. -/
theorem C3_amended (env : DownloadEnv) (k : ℕ)
    (hlaunch : env.aria2.launchFails = false)
    (hstop : ariaStopHit env.aria2.stopAt env.aria2.numLines = false)
    (hexit : ¬ env.aria2.exitCode = 0)
    (hconn : env.fallback.connectFails = false)
    (hstatus : env.fallback.status = 200)
    (hk : env.fallback.stopAt = some k)
    (hkn : k < env.fallback.chunks.length)
    (herr : env.fallback.errAt = none) :
    (download_from_link env).1 = false ∧
    (download_from_link env).2.1 = some ((env.fallback.chunks.take k).flatten) := by
  unfold download_from_link
  rw [if_neg (by rw [hlaunch]; exact Bool.false_ne_true),
    if_neg (by rw [hstop]; exact Bool.false_ne_true),
    if_neg (fun hc => hexit hc.1)]
  unfold download_fallback_slow
  rw [if_neg (by rw [hconn]; exact Bool.false_ne_true), if_neg (by rw [hstatus]; simp)]
  constructor
  · have : noHalt env.fallback.stopAt env.fallback.chunks.length = false := by
      rw [hk]
      simp only [noHalt, decide_eq_false_iff_not]
      omega
    simp [this]
  · have hw : fbWrittenCount env.fallback = k := by
      unfold fbWrittenCount optMin
      rw [hk, herr]
      exact min_eq_left (le_of_lt hkn)
    rw [hw]

/-- C3 witness: the counterexample's environment, through the amended
theorem: cancelled after chunk 1 of 2, destination left with `[1, 2]`. -/
theorem C3_amended_witness :
    (download_from_link ⟨⟨false, 0, none, 1, none⟩,
        ⟨false, 200, [[1, 2], [3]], some 1, none⟩⟩).1 = false ∧
    (download_from_link ⟨⟨false, 0, none, 1, none⟩,
        ⟨false, 200, [[1, 2], [3]], some 1, none⟩⟩).2.1 =
      some ((([[1, 2], [3]] : List (List ℕ)).take 1).flatten) :=
  C3_amended _ 1 rfl (by decide) (by decide) rfl rfl rfl (by decide) rfl

/-! ## Claim C7 — job-namespaced artifact paths -/

/-- C7 counterexample: the jobs of submitters 1 and 2 (distinct ids and
timestamps) use the **same** audio path for a segment with id `"s"` —
the audio path carries no job identity at all. -/
theorem C7_counterexample : ¬ C7_claimStatement := by
  intro h
  exact (h ⟨1, 10⟩ ⟨2, 20⟩ (by decide)).1 ⟨some "s", none, none, none⟩
    ⟨some "s", none, none, none⟩ 0 0 rfl

/-- C7 amended: only the saved-map path carries the job identity
(submitter id and enqueue timestamp); the audio and batch paths are
completely job-independent, and the input path depends only on the
submitter id — so two queued jobs sharing a segment id, a batch index, or
a submitter collide on disk.  (`bot.py` passes `task_id` to
`process_video_task`, but the `processor.py` signature does not accept
it.) -/
theorem C7_amended :
    (∀ (j₁ j₂ : Job) (seg : Segment) (i : ℕ),
      jobAudioPath j₁ seg i = jobAudioPath j₂ seg i) ∧
    (∀ (j₁ j₂ : Job) (b : ℕ), jobBatchPath j₁ b = jobBatchPath j₂ b) ∧
    (∀ (u t₁ t₂ : ℕ), jobInputPath ⟨u, t₁⟩ = jobInputPath ⟨u, t₂⟩) ∧
    jobMapPath ⟨1, 10⟩ ≠ jobMapPath ⟨2, 20⟩ :=
  ⟨fun _ _ _ _ => rfl, fun _ _ _ => rfl, fun _ _ _ => rfl, by decide⟩

/-! ## Claim C9 — failed merge must fail the job -/

/-- C9 counterexample: a job whose single batch renders fine, whose ffmpeg
merge exits with code 1 but leaves a (possibly incomplete) output file:
the worker proceeds to the upload and the submitter receives the success
notice. -/
theorem C9_counterexample : ¬ C9_claimStatement := by
  intro h
  have hne := h ⟨⟨⟨fun _ => true, fun _ => 5, fun _ => false, fun _ => true⟩, none, none,
      fun _ => false, 1, true⟩,
    [⟨some "1", some "0:00", some "0:05", some "hi"⟩],
    true, true, false, false, true, false, true, true⟩
    ⟨1, 10, "out", false⟩ [] (by decide)
  exact hne (by decide)

/-- C9 amended: the merge's exit status is never read — the pipeline's
outcome and file-system effect are identical under any two exit codes —
and a merge that writes no output file still makes `process_video_task`
return the output path (the second conjunct: a concrete run returning
`ok` while no file exists at the output path); the job only fails later
when the upload finds no file. -/
theorem C9_amended (env : TaskEnv) (segs : List Segment) (out : String)
    (fs0 : List String) (c₁ c₂ : ℤ) :
    process_video_task { env with mergeExitCode := c₁ } segs out fs0 =
      process_video_task { env with mergeExitCode := c₂ } segs out fs0 ∧
    ((process_video_task ⟨⟨fun _ => true, fun _ => 5, fun _ => false, fun _ => true⟩,
        none, none, fun _ => false, 1, false⟩
        [⟨some "1", some "0:00", some "0:05", some "hi"⟩] (outputPathOf "out") []).1 =
      Except.ok (outputPathOf "out") ∧
     outputPathOf "out" ∉
      (process_video_task ⟨⟨fun _ => true, fun _ => 5, fun _ => false, fun _ => true⟩,
        none, none, fun _ => false, 1, false⟩
        [⟨some "1", some "0:00", some "0:05", some "hi"⟩] (outputPathOf "out") []).2) := by
  refine ⟨?_, by decide, by decide⟩
  cases env
  rfl

/-! ## Claim C10 — cancel-all and the stop notice -/

/-- C10 counterexample: a job cancelled while its link download is running:
`download_from_link` returns `False`, the worker raises
`"Download failed."`, and the submitter receives the generic error notice,
not the stop notice. -/
theorem C10_counterexample : ¬ C10_claimStatement := by
  intro h
  have hm := h.2 ⟨⟨⟨fun _ => true, fun _ => 5, fun _ => false, fun _ => true⟩, none, none,
      fun _ => false, 0, true⟩, [], true, false, false, true, true, false, true, true⟩
    ⟨1, 10, "out", true⟩ [] (Or.inl rfl)
  exact absurd hm (by decide)

/-- C10 amended: after `stop_all` the queue is empty and the in-flight
job's flag is set; a cancellation observed at the post-download stop check
(or any later pipeline poll, all of which raise `"⛔ Task Stopped"`)
surfaces as the distinct stop notice, but a cancellation during a link
download makes `download_from_link` return `False`, which the worker
reports as the generic `"❌ **Error:** Download failed."` instead. -/
theorem C10_amended :
    (∀ (q : List TaskData) (p f : Bool),
      (stop_all q p f).1 = [] ∧ (stop_all q true f).2 = true) ∧
    (∀ (env : WorkerEnv) (task : TaskData) (fs0 : List String),
      task.fromLink = true → env.dlSucceeds = false →
      (queue_worker_once env task fs0).1 = genericError "Download failed.") ∧
    (∀ (env : WorkerEnv) (task : TaskData) (fs0 : List String),
      env.dlSucceeds = true → env.tgDlOk = true → env.stopAfterDl = true →
      (queue_worker_once env task fs0).1 = STOPPED_NOTICE) := by
  refine ⟨fun q p f => ⟨rfl, rfl⟩, ?_, ?_⟩
  · intro env task fs0 hl hd
    unfold queue_worker_once
    simp only [hl, hd, if_true, Bool.false_eq_true, if_false]
    exact (by decide : terminalErrorMessage "Download failed." = genericError "Download failed.")
  · intro env task fs0 hd ht hs
    unfold queue_worker_once workerAfterDl
    by_cases hfl : task.fromLink = true
    · simp only [hfl, hd, hs, if_true]
      exact (by decide : terminalErrorMessage STOP_MSG = STOPPED_NOTICE)
    · simp only [hfl, ht, hs, if_true, if_false]
      exact (by decide : terminalErrorMessage STOP_MSG = STOPPED_NOTICE)

/-- C10 witness: the two terminal-message branches at concrete inputs —
cancel during a link download gives the generic error, cancel at the
post-download check gives the stop notice. -/
theorem C10_amended_witness :
    (queue_worker_once ⟨⟨⟨fun _ => true, fun _ => 5, fun _ => false, fun _ => true⟩, none, none,
        fun _ => false, 0, true⟩, [], true, false, false, true, true, false, true, true⟩
      ⟨1, 10, "out", true⟩ []).1 = genericError "Download failed." ∧
    (queue_worker_once ⟨⟨⟨fun _ => true, fun _ => 5, fun _ => false, fun _ => true⟩, none, none,
        fun _ => false, 0, true⟩, [], true, true, false, false, true, true, true, true⟩
      ⟨1, 10, "out", false⟩ []).1 = STOPPED_NOTICE :=
  ⟨C10_amended.2.1 _ _ [] rfl rfl, C10_amended.2.2 _ _ [] rfl rfl rfl⟩

/-! ## Claim C8 — batch partitioning -/

/-- Shifting a Python range:
`range(s+d, n+d, step) = [i + d for i in range(s, n, step)]`. -/
theorem pyRangeF_shift (fuel : ℕ) : ∀ (s n d step : ℕ),
    pyRangeF fuel (s + d) (n + d) step = (pyRangeF fuel s n step).map (· + d) := by
  induction fuel with
  | zero => intro s n d step; rfl
  | succ f ih =>
    intro s n d step
    unfold pyRangeF
    by_cases h : 0 < step ∧ s < n
    · rw [if_pos ⟨h.1, by omega⟩, if_pos h]
      simp only [List.map_cons]
      have := ih (s + step) n d step
      rw [show s + d + step = s + step + d by omega, this]
    · rw [if_neg (by omega), if_neg (by omega)]
      rfl

/-- Chunking the empty list gives no chunks, for any fuel. -/
theorem chunksF_nil {α : Type} (B fuel : ℕ) : chunksF B fuel ([] : List α) = [] := by
  cases fuel <;> rfl

/-- The `segments[i : i + BATCH_SIZE]` slices at `range(0, total, BATCH_SIZE)`
are exactly the take/drop chunks. -/
theorem batchesOf_eq_chunksF {α : Type} (l : List α) :
    batchesOf l = chunksF BATCH_SIZE l.length l := by
  suffices h : ∀ (fuel : ℕ) (l : List α), l.length ≤ fuel →
      (pyRangeF fuel 0 l.length BATCH_SIZE).map (fun i => (l.drop i).take BATCH_SIZE) =
        chunksF BATCH_SIZE fuel l by
    exact h l.length l le_rfl
  intro fuel
  induction fuel with
  | zero =>
    intro l hl
    have hnil : l = [] := List.eq_nil_of_length_eq_zero (by omega)
    subst hnil
    rfl
  | succ f ih =>
    intro l hl
    match l with
    | [] => rfl
    | a :: t =>
      show (pyRangeF (f + 1) 0 (a :: t).length BATCH_SIZE).map _ = _
      unfold pyRangeF
      rw [if_pos ⟨by norm_num [BATCH_SIZE], by simp⟩]
      show _ = if BATCH_SIZE = 0 then [] else
        (a :: t).take BATCH_SIZE :: chunksF BATCH_SIZE f ((a :: t).drop BATCH_SIZE)
      rw [if_neg (by norm_num [BATCH_SIZE])]
      simp only [List.map_cons, List.drop_zero, zero_add]
      refine congrArg _ ?_
      by_cases hn : (a :: t).length ≤ BATCH_SIZE
      · have h1 : pyRangeF f BATCH_SIZE (a :: t).length BATCH_SIZE = [] := by
          cases f with
          | zero => rfl
          | succ f' =>
            unfold pyRangeF
            rw [if_neg (by omega)]
        have h2 : (a :: t).drop BATCH_SIZE = [] := by
          rw [List.drop_eq_nil_iff]
          exact hn
        rw [h1, h2, List.map_nil, chunksF_nil]
      · push_neg at hn
        have hshift := pyRangeF_shift f 0 ((a :: t).length - BATCH_SIZE) BATCH_SIZE BATCH_SIZE
        rw [zero_add, Nat.sub_add_cancel (le_of_lt hn)] at hshift
        rw [hshift, List.map_map]
        have hdl : ((a :: t).drop BATCH_SIZE).length = (a :: t).length - BATCH_SIZE := by
          simp
        have hrec := ih ((a :: t).drop BATCH_SIZE)
          (by
            have hB1 : (1 : ℕ) ≤ BATCH_SIZE := by norm_num [BATCH_SIZE]
            simp at hl ⊢
            omega)
        rw [hdl] at hrec
        rw [← hrec]
        refine List.map_congr_left ?_
        intro i _
        simp only [Function.comp_apply]
        rw [List.drop_drop, show BATCH_SIZE + i = i + BATCH_SIZE by omega]

/-- Chunk count: `⌈length / B⌉` in its integer form. -/
theorem chunksF_length {α : Type} (B : ℕ) (hB : 0 < B) : ∀ (fuel : ℕ) (l : List α),
    l.length ≤ fuel → (chunksF B fuel l).length = (l.length + (B - 1)) / B := by
  intro fuel
  induction fuel with
  | zero =>
    intro l hl
    have hnil : l = [] := List.eq_nil_of_length_eq_zero (by omega)
    subst hnil
    rw [chunksF_nil]
    simp only [List.length_nil, Nat.zero_add]
    exact (Nat.div_eq_of_lt (by omega)).symm
  | succ f ih =>
    intro l hl
    match l with
    | [] =>
      rw [chunksF_nil]
      simp only [List.length_nil, Nat.zero_add]
      exact (Nat.div_eq_of_lt (by omega)).symm
    | a :: t =>
      show (if B = 0 then [] else
        (a :: t).take B :: chunksF B f ((a :: t).drop B)).length = _
      rw [if_neg (by omega)]
      simp only [List.length_cons]
      rw [ih ((a :: t).drop B) (by simp at hl ⊢; omega)]
      have hdl : ((a :: t).drop B).length = t.length + 1 - B := by
        simp
      rw [hdl]
      by_cases hc : t.length + 1 ≤ B
      · have h0 : t.length + 1 - B = 0 := by omega
        rw [h0]
        have e1 : (0 + (B - 1)) / B = 0 := Nat.div_eq_of_lt (by omega)
        have e2 : (t.length + 1 + (B - 1)) / B = 1 :=
          Nat.div_eq_of_lt_le (by omega) (by omega)
        rw [e1, e2]
      · have he : t.length + 1 + (B - 1) = (t.length + 1 - B + (B - 1)) + B := by
          omega
        rw [he, Nat.add_div_right _ hB]

/-- Concatenating the chunks in order restores the original list. -/
theorem chunksF_flatten {α : Type} (B : ℕ) (hB : 0 < B) : ∀ (fuel : ℕ) (l : List α),
    l.length ≤ fuel → (chunksF B fuel l).flatten = l := by
  intro fuel
  induction fuel with
  | zero =>
    intro l hl
    have hnil : l = [] := List.eq_nil_of_length_eq_zero (by omega)
    subst hnil
    rfl
  | succ f ih =>
    intro l hl
    match l with
    | [] => rfl
    | a :: t =>
      show (if B = 0 then [] else
        (a :: t).take B :: chunksF B f ((a :: t).drop B)).flatten = _
      rw [if_neg (by omega)]
      simp only [List.flatten_cons]
      rw [ih ((a :: t).drop B) (by simp at hl ⊢; omega)]
      exact List.take_append_drop _ _

/-- Every chunk except possibly the last has exactly `B` elements. -/
theorem chunksF_nonfinal {α : Type} (B : ℕ) (hB : 0 < B) : ∀ (fuel : ℕ) (l : List α) (i : ℕ),
    l.length ≤ fuel → i + 1 < (chunksF B fuel l).length →
    ((chunksF B fuel l).getD i []).length = B := by
  intro fuel
  induction fuel with
  | zero =>
    intro l i hl hi
    have hnil : l = [] := List.eq_nil_of_length_eq_zero (by omega)
    subst hnil
    simp [chunksF] at hi
  | succ f ih =>
    intro l i hl hi
    match l with
    | [] => simp [chunksF] at hi
    | a :: t =>
      rw [show chunksF B (f + 1) (a :: t) = if B = 0 then [] else
          (a :: t).take B :: chunksF B f ((a :: t).drop B) from rfl] at hi ⊢
      rw [if_neg (by omega)] at hi ⊢
      match i with
      | 0 =>
        simp only [List.getD_cons_zero, List.length_take]
        simp only [List.length_cons] at hi
        have hne : chunksF B f ((a :: t).drop B) ≠ [] := by
          intro he
          rw [he] at hi
          simp at hi
        have hdne : (a :: t).drop B ≠ [] := by
          intro he
          rw [he] at hne
          exact hne (chunksF_nil B f)
        have : B < (a :: t).length := by
          by_contra hc
          exact hdne (List.drop_eq_nil_iff.mpr (by omega))
        omega
      | i + 1 =>
        simp only [List.getD_cons_succ]
        simp only [List.length_cons] at hi
        exact ih ((a :: t).drop B) i (by simp at hl ⊢; omega) (by omega)

/-- `(n + (B-1)) / B` is the rational ceiling of `n / B`. -/
theorem ceil_div_nat (n B : ℕ) (hB : 0 < B) :
    (((n + (B - 1)) / B : ℕ) : ℤ) = ⌈(n : ℚ) / (B : ℚ)⌉ := by
  have hB' : (0 : ℚ) < (B : ℚ) := by exact_mod_cast hB
  have hmod := Nat.div_add_mod (n + (B - 1)) B
  have hr : (n + (B - 1)) % B < B := Nat.mod_lt _ hB
  have h1 : n ≤ B * ((n + (B - 1)) / B) := by omega
  have h3 : B * ((n + (B - 1)) / B) < n + B := by omega
  symm
  rw [Int.ceil_eq_iff]
  simp only [Int.cast_natCast]
  constructor
  · rw [lt_div_iff₀ hB']
    have h3' : (B : ℚ) * (((n + (B - 1)) / B : ℕ) : ℚ) < (n : ℚ) + (B : ℚ) := by
      exact_mod_cast h3
    nlinarith [h3']
  · rw [div_le_iff₀ hB']
    have h1' : (n : ℚ) ≤ (B : ℚ) * (((n + (B - 1)) / B : ℕ) : ℚ) := by
      exact_mod_cast h1
    nlinarith [h1']

/-- C8: the renderer produces `⌈total / B⌉` batches for `B = 10` (also in
the source's own `(total + B - 1) // B` form), every non-final batch has
exactly `B` segments, and concatenating the batches in order restores the
original map order. -/
theorem C8_batching (segments : List Segment) :
    ((batchesOf segments).length : ℤ) = ⌈(segments.length : ℚ) / (BATCH_SIZE : ℚ)⌉ ∧
    (batchesOf segments).length = totalBatches segments.length ∧
    (∀ i, i + 1 < (batchesOf segments).length →
      ((batchesOf segments).getD i []).length = BATCH_SIZE) ∧
    (batchesOf segments).flatten = segments := by
  have hB : 0 < BATCH_SIZE := by norm_num [BATCH_SIZE]
  have he := batchesOf_eq_chunksF segments
  have hlen := chunksF_length BATCH_SIZE hB segments.length segments le_rfl
  refine ⟨?_, ?_, ?_, ?_⟩
  · rw [he, hlen]
    exact ceil_div_nat _ _ hB
  · rw [he, hlen]
    show (segments.length + (BATCH_SIZE - 1)) / BATCH_SIZE =
      (segments.length + BATCH_SIZE - 1) / BATCH_SIZE
    norm_num [BATCH_SIZE]
  · intro i hi
    rw [he] at hi ⊢
    exact chunksF_nonfinal _ hB _ _ i le_rfl hi
  · rw [he]
    exact chunksF_flatten _ hB _ _ le_rfl

/-- C8 witness: twelve segments form batches of 10 and 2. -/
theorem C8_batching_witness :
    ((batchesOf (List.replicate 12 (default : Segment))).length : ℤ) =
      ⌈((List.replicate 12 (default : Segment)).length : ℚ) / (BATCH_SIZE : ℚ)⌉ ∧
    (batchesOf (List.replicate 12 (default : Segment))).length =
      totalBatches (List.replicate 12 (default : Segment)).length ∧
    (∀ i, i + 1 < (batchesOf (List.replicate 12 (default : Segment))).length →
      ((batchesOf (List.replicate 12 (default : Segment))).getD i []).length = BATCH_SIZE) ∧
    (batchesOf (List.replicate 12 (default : Segment))).flatten =
      List.replicate 12 (default : Segment) :=
  C8_batching (List.replicate 12 (default : Segment))

/-! ## Claim C2 — which segments are skipped -/

/-- C2 counterexample: a segment with unparseable `start_time` (`"bad"`)
and valid `end_time` (`"0:10"`) satisfies the claim's skip condition, yet
it renders: `parse_time` maps the garbage to `0 < 600`, so the slice is
built from 0 and the clip is produced. -/
theorem C2_counterexample : ¬ C2_claimStatement := by
  intro h
  have hb := h ⟨fun _ => true, fun _ => 5, fun _ => false, fun _ => true⟩
    [⟨some "1", some "bad", some "0:10", some "hello"⟩] 0
    [⟨0, ClipMode.trim, 1, 5⟩] ⟨0, ClipMode.trim, 1, 5⟩ (by decide) (by decide)
  exact absurd hb (by decide)

/-- `(l.enumFrom n)[i]?` is `l[i]?` paired with `n + i`. -/
theorem enumFrom_getElem? {α : Type} : ∀ (l : List α) (n i : ℕ),
    (l.enumFrom n)[i]? = (l[i]?).map (fun a => (n + i, a)) := by
  intro l
  induction l with
  | nil => intro n i; simp
  | cons a t ih =>
    intro n i
    match i with
    | 0 => simp [List.enumFrom]
    | i + 1 =>
      rw [show List.enumFrom n (a :: t) = (n, a) :: List.enumFrom (n + 1) t from rfl]
      rw [List.getElem?_cons_succ, List.getElem?_cons_succ, ih (n + 1) i]
      rw [show n + 1 + i = n + (i + 1) by omega]

/-- Membership in `enumFrom` gives back the indexed element. -/
theorem mem_enumFrom_getElem? {α : Type} : ∀ (l : List α) (n : ℕ) (p : ℕ × α),
    p ∈ l.enumFrom n → n ≤ p.1 ∧ l[p.1 - n]? = some p.2 := by
  intro l
  induction l with
  | nil => intro n p h; cases h
  | cons a t ih =>
    intro n p h
    rcases List.mem_cons.mp h with he | ht
    · subst he
      exact ⟨le_rfl, by simp⟩
    · obtain ⟨h1, h2⟩ := ih (n + 1) p ht
      refine ⟨by omega, ?_⟩
      rw [show p.1 - n = (p.1 - (n + 1)) + 1 by omega, List.getElem?_cons_succ]
      exact h2

/-- Every branch of the ratio analysis records the given segment index. -/
theorem clipForSeg_segIdx (i : ℕ) (A V : ℚ) : (clipForSeg i A V).segIdx = i := by
  simp only [clipForSeg]
  split_ifs <;> rfl

/-- What a produced clip tells us about its segment: the recorded index,
that the parsed start is strictly below the parsed end, and that the audio
file for the segment's render key exists. -/
theorem segClip_eq_some {env : RenderEnv} {bi off i : ℕ} {seg : Segment}
    {c : RenderedClip} (h : segClip env bi off i seg = some c) :
    c.segIdx = off + i ∧
    parse_time (seg.start_time.getD "0:00") < parse_time (seg.end_time.getD "0:00") ∧
    (env.audioDur (audioPathOf (audioKeyB seg bi i))).isSome = true := by
  unfold segClip at h
  cases haud : env.audioDur (audioPathOf (audioKeyB seg bi i)) with
  | none =>
    simp only [haud] at h
    exact Option.noConfusion h
  | some A =>
    simp only [haud] at h
    by_cases herr : env.clipErr (off + i) = true
    · rw [if_pos herr] at h
      cases h
    · rw [if_neg herr] at h
      by_cases hse : parse_time (seg.start_time.getD "0:00") ≥
          parse_time (seg.end_time.getD "0:00")
      · rw [if_pos hse] at h
        cases h
      · rw [if_neg hse] at h
        by_cases hV : subclippedDur (parse_time (seg.start_time.getD "0:00"))
            (parse_time (seg.end_time.getD "0:00")) < 1/10
        · rw [if_pos hV] at h
          cases h
        · rw [if_neg hV] at h
          have hc : clipForSeg (off + i) A
              (subclippedDur (parse_time (seg.start_time.getD "0:00"))
                (parse_time (seg.end_time.getD "0:00"))) = c := by
            injection h
          refine ⟨?_, lt_of_not_ge hse, rfl⟩
          rw [← hc, clipForSeg_segIdx]

/-- Phase A only creates audio files: membership in its result traces back
either to the initial file system or to a segment whose
`generate_audio_sync` returned `True`. -/
theorem mem_phaseA_ex {tts : ℕ → Bool} : ∀ (segs : List Segment) (i₀ : ℕ)
    (fs : List String) (p : String), p ∈ phaseA tts i₀ segs fs →
    p ∈ fs ∨ ∃ j seg, segs[j]? = some seg ∧ p = audioPathOf (audioKeyA seg (i₀ + j)) ∧
      generate_audio_sync (tts (i₀ + j)) (seg.explanation_text.getD "") = true := by
  intro segs
  induction segs with
  | nil => intro i₀ fs p h; exact Or.inl h
  | cons seg rest ih =>
    intro i₀ fs p h
    rw [show phaseA tts i₀ (seg :: rest) fs = phaseA tts (i₀ + 1) rest
      (if audioPathOf (audioKeyA seg i₀) ∈ fs then fs
       else if generate_audio_sync (tts i₀) (seg.explanation_text.getD "") then
         audioPathOf (audioKeyA seg i₀) :: fs else fs) from rfl] at h
    rcases ih (i₀ + 1) _ p h with hin | ⟨j, sj, hj, hp, hg⟩
    · by_cases hmem : audioPathOf (audioKeyA seg i₀) ∈ fs
      · rw [if_pos hmem] at hin
        exact Or.inl hin
      · rw [if_neg hmem] at hin
        by_cases hgen : generate_audio_sync (tts i₀) (seg.explanation_text.getD "") = true
        · rw [if_pos hgen] at hin
          rcases List.mem_cons.mp hin with he | hin2
          · refine Or.inr ⟨0, seg, by simp, ?_, ?_⟩
            · rw [Nat.add_zero]
              exact he
            · rw [Nat.add_zero]
              exact hgen
          · exact Or.inl hin2
        · rw [if_neg hgen] at hin
          exact Or.inl hin
    · refine Or.inr ⟨j + 1, sj, ?_, ?_, ?_⟩
      · simpa using hj
      · rw [show i₀ + (j + 1) = i₀ + 1 + j by omega]
        exact hp
      · rw [show i₀ + (j + 1) = i₀ + 1 + j by omega]
        exact hg

/-- `String.append` concatenates the character data. -/
theorem string_data_append (s t : String) : (s ++ t).data = s.data ++ t.data := rfl

/-- The audio path determines the audio key. -/
theorem audioPathOf_inj {k₁ k₂ : String} (h : audioPathOf k₁ = audioPathOf k₂) :
    k₁ = k₂ := by
  have hd := congrArg String.data h
  simp only [audioPathOf, TEMP_DIR, string_data_append, List.append_assoc] at hd
  have h2 := List.append_cancel_left hd
  have h3 := List.append_cancel_left h2
  have h4 := List.append_cancel_right h3
  cases k₁
  cases k₂
  exact congrArg String.mk h4

/-- Every element of a Python range is `start + index · step`. -/
theorem pyRangeF_getElem?_val : ∀ (fuel start stop step b : ℕ) (x : ℕ),
    (pyRangeF fuel start stop step)[b]? = some x → x = start + b * step := by
  intro fuel
  induction fuel with
  | zero =>
    intro start stop step b x h
    cases h
  | succ f ih =>
    intro start stop step b x h
    unfold pyRangeF at h
    by_cases hc : 0 < step ∧ start < stop
    · rw [if_pos hc] at h
      match b with
      | 0 =>
        simp at h
        omega
      | b + 1 =>
        rw [List.getElem?_cons_succ] at h
        have hx := ih (start + step) stop step b x h
        rw [hx]
        ring
    · rw [if_neg hc] at h
      cases h

/-- Decomposing an indexed batch: its segments are the slice at
`b * BATCH_SIZE`. -/
theorem batchesOf_getElem? {α : Type} {l : List α} {b : ℕ} {bs : List α}
    (h : (batchesOf l)[b]? = some bs) :
    bs = (l.drop (b * BATCH_SIZE)).take BATCH_SIZE := by
  unfold batchesOf pyRange at h
  rw [List.getElem?_map] at h
  cases hr : (pyRangeF l.length 0 l.length BATCH_SIZE)[b]? with
  | none =>
    rw [hr] at h
    cases h
  | some i0 =>
    rw [hr] at h
    have hv := pyRangeF_getElem?_val _ _ _ _ _ _ hr
    simp only [Option.map_some'] at h
    have hbs : (l.drop i0).take BATCH_SIZE = bs := by injection h
    rw [← hbs, hv, Nat.zero_add]

/-- Batch-local indexing gives global indexing. -/
theorem batch_getElem?_global {α : Type} {l : List α} {b i : ℕ} {x : α}
    (h : ((l.drop (b * BATCH_SIZE)).take BATCH_SIZE)[i]? = some x) :
    l[b * BATCH_SIZE + i]? = some x := by
  rw [List.getElem?_take] at h
  by_cases hi : i < BATCH_SIZE
  · rw [if_pos hi] at h
    rw [List.getElem?_drop] at h
    exact h
  · rw [if_neg hi] at h
    cases h

/-- Every clip of a written batch comes from a `segClip` success on one of
the batch's enumerated segments. -/
theorem render_batch_some {env : RenderEnv} {bi off : ℕ} {segs : List Segment}
    {clips : List RenderedClip} (h : render_batch env bi off segs = some clips) :
    ∀ c ∈ clips, ∃ i seg, segs[i]? = some seg ∧ segClip env bi off i seg = some c := by
  unfold render_batch at h
  by_cases hstop : renderStopHit env.stopAtSeg segs.length = true
  · rw [if_pos hstop] at h
    cases h
  · rw [if_neg hstop] at h
    by_cases hnil : segs.enum.filterMap (fun p => segClip env bi off p.1 p.2) = []
    · rw [if_pos hnil] at h
      cases h
    · rw [if_neg hnil] at h
      by_cases hw : env.writeOk = true
      · rw [if_pos hw] at h
        have hcl : segs.enum.filterMap (fun p => segClip env bi off p.1 p.2) = clips := by
          injection h
        intro c hcmem
        rw [← hcl] at hcmem
        obtain ⟨p, hpmem, hpf⟩ := List.mem_filterMap.mp hcmem
        obtain ⟨_, hget⟩ := mem_enumFrom_getElem? segs 0 p hpmem
        refine ⟨p.1, p.2, ?_, hpf⟩
        simpa using hget
      · rw [if_neg hw] at h
        cases h

/-- C2 amended: the code's skip condition is `parse_time`-based, not
format-based.  In a fresh run over segments with explicit pairwise-distinct
ids, every rendered clip's segment has `parse_time(start) < parse_time(end)`
— where a missing or unparseable timestamp parses to `0`, so a segment with
garbage `start_time` and a valid positive `end_time` is **not** skipped —
and non-empty, non-whitespace narration text (an empty text leaves no audio
file, which does make the renderer skip the segment). -/
theorem C2_amended (env : RunEnv) (segments : List Segment) (b : ℕ)
    (clips : List RenderedClip) (c : RenderedClip)
    (hids : ∀ seg ∈ segments, seg.id.isSome = true)
    (hnd : (segments.map Segment.id).Nodup)
    (hb : (runSegmentsFresh env segments)[b]? = some (some clips))
    (hc : c ∈ clips) :
    parse_time ((segments.getD c.segIdx default).start_time.getD "0:00") <
      parse_time ((segments.getD c.segIdx default).end_time.getD "0:00") ∧
    pyStrip (((segments.getD c.segIdx default).explanation_text.getD "").data) ≠ [] := by
  simp only [runSegmentsFresh] at hb
  rw [List.getElem?_map,
    show (batchesOf segments).enum = (batchesOf segments).enumFrom 0 from rfl,
    enumFrom_getElem?] at hb
  cases hbs : (batchesOf segments)[b]? with
  | none =>
    rw [hbs] at hb
    cases hb
  | some bs =>
    rw [hbs] at hb
    simp only [Option.map_some', Nat.zero_add] at hb
    have hrb : render_batch
        { audioDur := fun q =>
            if q ∈ phaseA env.ttsOk 0 segments [] then some (env.audioDurOf q) else none
          clipErr := env.clipErr
          stopAtSeg := none
          writeOk := env.writeOk (b + 1) }
        (b + 1) (b * BATCH_SIZE) bs = some clips := by
      injection hb
    obtain ⟨i, seg, hgeti, hsc⟩ := render_batch_some hrb c hc
    obtain ⟨hidx, hlt, hsome⟩ := segClip_eq_some hsc
    have hglob : segments[b * BATCH_SIZE + i]? = some seg := by
      refine batch_getElem?_global ?_
      rw [← batchesOf_getElem? hbs]
      exact hgeti
    have hmem : seg ∈ segments := List.getElem?_mem hglob
    have hgetD : segments.getD c.segIdx default = seg := by
      rw [List.getD_eq_getElem?_getD, hidx, hglob]
      rfl
    refine ⟨by rw [hgetD]; exact hlt, ?_⟩
    -- the audio file exists in the fresh phase-A file system
    have hpath : audioPathOf (audioKeyB seg (b + 1) i) ∈ phaseA env.ttsOk 0 segments [] := by
      by_contra hno
      simp only [if_neg hno] at hsome
      cases hsome
    rcases mem_phaseA_ex segments 0 [] _ hpath with hfalse | ⟨j, sj, hgetj, hpeq, hgen⟩
    · cases hfalse
    · -- identify the creating segment with the clip's segment via the ids
      obtain ⟨s, hs⟩ := Option.isSome_iff_exists.mp (hids seg hmem)
      obtain ⟨s', hs'⟩ := Option.isSome_iff_exists.mp (hids sj (List.getElem?_mem hgetj))
      have hkeyB : audioKeyB seg (b + 1) i = s := by
        unfold audioKeyB
        rw [hs]
        rfl
      have hkeyA : audioKeyA sj (0 + j) = s' := by
        unfold audioKeyA
        rw [hs']
        rfl
      have hss : s = s' := by
        have := audioPathOf_inj hpeq
        rw [hkeyB, hkeyA] at this
        exact this
      have hmapj : (segments.map Segment.id)[j]? = some (some s) := by
        rw [List.getElem?_map, hgetj]
        simp [hs', hss]
      have hmapi : (segments.map Segment.id)[b * BATCH_SIZE + i]? = some (some s) := by
        rw [List.getElem?_map, hglob]
        simp [hs]
      have hjlt : j < (segments.map Segment.id).length := by
        by_contra hcon
        rw [List.getElem?_eq_none (by omega)] at hmapj
        cases hmapj
      have hij : j = b * BATCH_SIZE + i :=
        List.getElem?_inj hjlt hnd (hmapj.trans hmapi.symm)
      have hsj : sj = seg := by
        rw [hij] at hgetj
        rw [hglob] at hgetj
        injection hgetj with hgetj
        exact hgetj.symm
      rw [hgetD]
      intro hempty
      rw [hsj] at hgen
      unfold generate_audio_sync at hgen
      rw [if_pos hempty] at hgen
      cases hgen

/-- C2 witness: one well-formed segment (`0:00 → 0:05`, text `"hi"`)
renders a trim clip; the amended theorem yields its parsed-time ordering
and non-empty text. -/
theorem C2_amended_witness :
    parse_time ((([(⟨some "1", some "0:00", some "0:05", some "hi"⟩ : Segment)].getD
        (⟨0, ClipMode.trim, 1, 2⟩ : RenderedClip).segIdx default).start_time).getD "0:00") <
      parse_time ((([(⟨some "1", some "0:00", some "0:05", some "hi"⟩ : Segment)].getD
        (⟨0, ClipMode.trim, 1, 2⟩ : RenderedClip).segIdx default).end_time).getD "0:00") ∧
    pyStrip ((([(⟨some "1", some "0:00", some "0:05", some "hi"⟩ : Segment)].getD
        (⟨0, ClipMode.trim, 1, 2⟩ : RenderedClip).segIdx
        default).explanation_text.getD "").data) ≠ [] :=
  C2_amended ⟨fun _ => true, fun _ => 2, fun _ => false, fun _ => true⟩
    [⟨some "1", some "0:00", some "0:05", some "hi"⟩] 0 [⟨0, ClipMode.trim, 1, 2⟩]
    ⟨0, ClipMode.trim, 1, 2⟩ (by decide) (by decide) (by decide) (by decide)

/-! ## Claim C6 — cleanup of temporary artifacts -/

/-- C6 counterexample: a fully successful job leaves its synthesized audio
file `temp_audio/audio_1.wav` on disk — no code path ever removes audio
artifacts (the phase-A `os.path.exists` check even relies on them as a
cache). -/
theorem C6_counterexample : ¬ C6_claimStatement := by
  intro h
  exact h ⟨⟨⟨fun _ => true, fun _ => 5, fun _ => false, fun _ => true⟩, none, none,
      fun _ => false, 0, true⟩,
    [⟨some "1", some "0:00", some "0:05", some "hi"⟩],
    true, true, false, false, true, false, true, true⟩
    ⟨1, 10, "out", false⟩ (audioPathOf "1") (Or.inl ⟨"1", rfl⟩) (by decide)

/-- File creation preserves membership. -/
theorem mem_fsAdd_of_mem {fs : List String} {p q : String} (h : p ∈ fs) :
    p ∈ fsAdd fs q := by
  unfold fsAdd
  by_cases hq : q ∈ fs
  · rw [if_pos hq]
    exact h
  · rw [if_neg hq]
    exact List.mem_cons_of_mem _ h

/-- Membership after `os.remove`. -/
theorem mem_fsRemove {fs : List String} {p q : String} :
    p ∈ fsRemove fs q ↔ p ∈ fs ∧ p ≠ q := by
  unfold fsRemove
  rw [List.mem_filter]
  simp [bne_iff_ne]

/-- Membership after `clean_up`: survives exactly the paths not in the
removal list. -/
theorem mem_clean_up {paths : List String} : ∀ {fs : List String} {p : String},
    p ∈ clean_up fs paths ↔ p ∈ fs ∧ p ∉ paths := by
  induction paths with
  | nil =>
    intro fs p
    simp [clean_up]
  | cons q rest ih =>
    intro fs p
    show p ∈ clean_up (fsRemove fs q) rest ↔ _
    rw [ih, mem_fsRemove]
    simp only [List.mem_cons]
    constructor
    · rintro ⟨⟨h1, h2⟩, h3⟩
      exact ⟨h1, fun hor => hor.elim h2 h3⟩
    · rintro ⟨h1, h2⟩
      exact ⟨⟨h1, fun he => h2 (Or.inl he)⟩, fun hm => h2 (Or.inr hm)⟩

/-- Phase A only creates files. -/
theorem mem_phaseA_of_mem {tts : ℕ → Bool} : ∀ (segs : List Segment) (i₀ : ℕ)
    (fs : List String) (p : String), p ∈ fs → p ∈ phaseA tts i₀ segs fs := by
  intro segs
  induction segs with
  | nil => intro i₀ fs p h; exact h
  | cons seg rest ih =>
    intro i₀ fs p h
    have hfs2 : p ∈ (if audioPathOf (audioKeyA seg i₀) ∈ fs then fs
        else if generate_audio_sync (tts i₀) (seg.explanation_text.getD "") then
          audioPathOf (audioKeyA seg i₀) :: fs else fs) := by
      by_cases h1 : audioPathOf (audioKeyA seg i₀) ∈ fs
      · rw [if_pos h1]
        exact h
      · rw [if_neg h1]
        by_cases h2 : generate_audio_sync (tts i₀) (seg.explanation_text.getD "") = true
        · rw [if_pos h2]
          exact List.mem_cons_of_mem _ h
        · rw [if_neg h2]
          exact h
    exact ih (i₀ + 1) _ p hfs2

/-- Phase A with the stop poll only creates files. -/
theorem mem_phaseAWithStop_of_mem (run0 : RunEnv) (sa : Option ℕ) (segs : List Segment)
    (fs : List String) (p : String) (h : p ∈ fs) :
    p ∈ (phaseAWithStop run0 sa segs fs).2 := by
  unfold phaseAWithStop
  cases sa with
  | none => exact mem_phaseA_of_mem _ _ _ _ h
  | some k =>
    dsimp only
    by_cases hk : k < segs.length
    · rw [if_pos hk]
      exact mem_phaseA_of_mem _ _ _ _ h
    · rw [if_neg hk]
      exact mem_phaseA_of_mem _ _ _ _ h

/-- The phase-B loop only creates files. -/
theorem mem_runBatchesFS_of_mem (run0 : RunEnv) (sb : Option ℕ) (sd : ℕ → Bool) :
    ∀ (l : List (ℕ × List Segment)) (fs acc : List String) (p : String),
    p ∈ fs → p ∈ (runBatchesFS run0 sb sd l fs acc).2 := by
  intro l
  induction l with
  | nil => intro fs acc p h; exact h
  | cons hd tl ih =>
    intro fs acc p h
    obtain ⟨b, bsegs⟩ := hd
    unfold runBatchesFS
    by_cases hs : stopHitBy sb b = true
    · rw [if_pos hs]
      exact h
    · rw [if_neg hs]
      cases hrb : render_batch
          { audioDur := fun q => if q ∈ fs then some (run0.audioDurOf q) else none
            clipErr := run0.clipErr
            stopAtSeg := if sd b then some 0 else none
            writeOk := run0.writeOk (b + 1) }
          (b + 1) (b * BATCH_SIZE) bsegs with
      | some clips =>
        simp only [hrb]
        exact ih _ _ p (mem_fsAdd_of_mem h)
      | none =>
        simp only [hrb]
        by_cases hsd : sd b = true
        · rw [if_pos hsd]
          exact h
        · rw [if_neg hsd]
          exact ih _ _ p h

/-- Every path the phase-B loop hands to the merge list is a batch path
(starting from an accumulator of batch paths). -/
theorem runBatchesFS_ok_shape (run0 : RunEnv) (sb : Option ℕ) (sd : ℕ → Bool) :
    ∀ (l : List (ℕ × List Segment)) (fs acc : List String) (bfs : List String),
    (runBatchesFS run0 sb sd l fs acc).1 = Except.ok bfs →
    (∀ q ∈ acc, ∃ bb, q = batchPath bb) → ∀ q ∈ bfs, ∃ bb, q = batchPath bb := by
  intro l
  induction l with
  | nil =>
    intro fs acc bfs h hacc
    have : acc = bfs := by injection h
    rw [← this]
    exact hacc
  | cons hd tl ih =>
    intro fs acc bfs h hacc
    obtain ⟨b, bsegs⟩ := hd
    unfold runBatchesFS at h
    by_cases hs : stopHitBy sb b = true
    · rw [if_pos hs] at h
      cases h
    · rw [if_neg hs] at h
      cases hrb : render_batch
          { audioDur := fun q => if q ∈ fs then some (run0.audioDurOf q) else none
            clipErr := run0.clipErr
            stopAtSeg := if sd b then some 0 else none
            writeOk := run0.writeOk (b + 1) }
          (b + 1) (b * BATCH_SIZE) bsegs with
      | some clips =>
        simp only [hrb] at h
        refine ih _ _ bfs h ?_
        intro q hq
        rcases List.mem_append.mp hq with hq1 | hq2
        · exact hacc q hq1
        · rcases List.mem_singleton.mp hq2 with rfl
          exact ⟨b + 1, rfl⟩
      | none =>
        simp only [hrb] at h
        by_cases hsd : sd b = true
        · rw [if_pos hsd] at h
          cases h
        · rw [if_neg hsd] at h
          exact ih _ _ bfs h hacc

/-- Strings differing at some character position are distinct. -/
theorem ne_of_data_getElem? (s t : String) (n : ℕ)
    (h : s.data[n]? ≠ t.data[n]?) : s ≠ t := fun he => h (by rw [he])

/-- The head character survives appending on the right. -/
theorem string_head_append (s t : String) (c : Char) (h : s.data[0]? = some c) :
    (s ++ t).data[0]? = some c := by
  rw [string_data_append]
  rcases hd : s.data with _ | ⟨a, rest⟩
  · rw [hd] at h
    cases h
  · rw [hd] at h
    simpa using h

theorem audioPathOf_data (key : String) :
    (audioPathOf key).data = "temp_audio/audio_".data ++ (key.data ++ ".wav".data) := by
  show (((TEMP_DIR ++ "/audio_") ++ key) ++ ".wav").data = _
  rw [string_data_append, string_data_append]
  rw [show (TEMP_DIR ++ "/audio_").data = "temp_audio/audio_".data by decide]
  rw [List.append_assoc]

theorem batchPath_data (n : ℕ) :
    (batchPath n).data = "temp_audio/batch_".data ++ ((Nat.repr n).data ++ ".mp4".data) := by
  show (((TEMP_DIR ++ "/batch_") ++ (Nat.repr n : String)) ++ ".mp4").data = _
  rw [string_data_append, string_data_append]
  rw [show (TEMP_DIR ++ "/batch_").data = "temp_audio/batch_".data by decide]
  rw [List.append_assoc]

theorem audio_at11 (key : String) : (audioPathOf key).data[11]? = some 'a' := by
  rw [audioPathOf_data, List.getElem?_append]
  rw [if_pos (show (11 : ℕ) < "temp_audio/audio_".data.length by decide)]
  decide

theorem batch_at11 (n : ℕ) : (batchPath n).data[11]? = some 'b' := by
  rw [batchPath_data, List.getElem?_append]
  rw [if_pos (show (11 : ℕ) < "temp_audio/batch_".data.length by decide)]
  decide

theorem audio_at0 (key : String) : (audioPathOf key).data[0]? = some 't' := by
  rw [audioPathOf_data, List.getElem?_append]
  rw [if_pos (show (0 : ℕ) < "temp_audio/audio_".data.length by decide)]
  decide

theorem mapFilePath_at0 (u t : ℕ) : (mapFilePath u t).data[0]? = some 'd' := by
  unfold mapFilePath DOWNLOAD_DIR
  apply string_head_append
  apply string_head_append
  apply string_head_append
  apply string_head_append
  apply string_head_append
  decide

theorem inputVideoPath_at0 (u : ℕ) : (inputVideoPath u).data[0]? = some 'd' := by
  unfold inputVideoPath DOWNLOAD_DIR
  apply string_head_append
  apply string_head_append
  apply string_head_append
  decide

theorem outputPathOf_at0 (f : String) : (outputPathOf f).data[0]? = some 'o' := by
  unfold outputPathOf OUTPUT_DIR
  apply string_head_append
  apply string_head_append
  apply string_head_append
  decide

theorem thumbPathOf_at0 (f : String) : (thumbPathOf f).data[0]? = some 'o' := by
  unfold thumbPathOf OUTPUT_DIR
  apply string_head_append
  apply string_head_append
  apply string_head_append
  decide

theorem audio_ne_batch (key : String) (n : ℕ) : audioPathOf key ≠ batchPath n := by
  refine ne_of_data_getElem? _ _ 11 ?_
  rw [audio_at11, batch_at11]
  decide

theorem audio_ne_list (key : String) : audioPathOf key ≠ listFilePath := by
  refine ne_of_data_getElem? _ _ 11 ?_
  rw [audio_at11]
  decide

theorem audio_ne_map (key : String) (u t : ℕ) : audioPathOf key ≠ mapFilePath u t := by
  refine ne_of_data_getElem? _ _ 0 ?_
  rw [audio_at0, mapFilePath_at0]
  decide

theorem audio_ne_input (key : String) (u : ℕ) : audioPathOf key ≠ inputVideoPath u := by
  refine ne_of_data_getElem? _ _ 0 ?_
  rw [audio_at0, inputVideoPath_at0]
  decide

theorem audio_ne_output (key f : String) : audioPathOf key ≠ outputPathOf f := by
  refine ne_of_data_getElem? _ _ 0 ?_
  rw [audio_at0, outputPathOf_at0]
  decide

theorem audio_ne_thumb (key f : String) : audioPathOf key ≠ thumbPathOf f := by
  refine ne_of_data_getElem? _ _ 0 ?_
  rw [audio_at0, thumbPathOf_at0]
  decide

/-- `process_video_task` never removes an audio file. -/
theorem ppt_preserves_audio (env : TaskEnv) (segs : List Segment) (out : String)
    (fs0 : List String) (key : String) (h : audioPathOf key ∈ fs0) :
    audioPathOf key ∈ (process_video_task env segs out fs0).2 := by
  unfold process_video_task
  cases hpa : phaseAWithStop env.run env.stopAtAudio segs fs0 with
  | mk r1 fs1 =>
    have h1 : audioPathOf key ∈ fs1 := by
      have := mem_phaseAWithStop_of_mem env.run env.stopAtAudio segs fs0 _ h
      rw [hpa] at this
      exact this
    cases r1 with
    | error e => exact h1
    | ok u =>
      dsimp only
      cases hrb : runBatchesFS env.run env.stopAtBatch env.stopDuringBatch
          (batchesOf segs).enum fs1 [] with
      | mk r2 fs2 =>
        have h2 : audioPathOf key ∈ fs2 := by
          have := mem_runBatchesFS_of_mem env.run env.stopAtBatch env.stopDuringBatch
            (batchesOf segs).enum fs1 [] _ h1
          rw [hrb] at this
          exact this
        cases r2 with
        | error e => exact h2
        | ok bfs =>
          dsimp only
          by_cases hb : bfs = []
          · rw [if_pos hb]
            exact h2
          · rw [if_neg hb]
            have hshape : ∀ q ∈ bfs, ∃ bb, q = batchPath bb := by
              refine runBatchesFS_ok_shape env.run env.stopAtBatch env.stopDuringBatch
                (batchesOf segs).enum fs1 [] bfs ?_ ?_
              · rw [hrb]
              · intro q hq
                cases hq
            have h3 : audioPathOf key ∈ fsAdd fs2 listFilePath := mem_fsAdd_of_mem h2
            have h4 : audioPathOf key ∈
                (if env.mergeWritesOutput = true then fsAdd (fsAdd fs2 listFilePath) out
                 else fsAdd fs2 listFilePath) := by
              by_cases hm : env.mergeWritesOutput = true
              · rw [if_pos hm]
                exact mem_fsAdd_of_mem h3
              · rw [if_neg hm]
                exact h3
            have h5 : audioPathOf key ∈ clean_up
                (if env.mergeWritesOutput = true then fsAdd (fsAdd fs2 listFilePath) out
                 else fsAdd fs2 listFilePath) bfs := by
              refine mem_clean_up.mpr ⟨h4, ?_⟩
              intro hq
              obtain ⟨bb, hbb⟩ := hshape _ hq
              exact audio_ne_batch key bb hbb
            exact mem_fsRemove.mpr ⟨h5, audio_ne_list key⟩

/-- The post-download worker phase never removes an audio file. -/
theorem workerAfterDl_preserves_audio (env : WorkerEnv) (task : TaskData)
    (fs : List String) (key : String) (h : audioPathOf key ∈ fs) :
    audioPathOf key ∈ (workerAfterDl env task fs).2 := by
  unfold workerAfterDl
  by_cases h1 : env.stopAfterDl = true
  · rw [if_pos h1]
    exact h
  · rw [if_neg h1]
    by_cases h2 : ¬ env.mapParses = true
    · rw [if_pos h2]
      exact h
    · rw [if_neg h2]
      cases hppt : process_video_task env.task env.segments (outputPathOf task.filename) fs with
      | mk r fs2 =>
        have hp : audioPathOf key ∈ fs2 := by
          have := ppt_preserves_audio env.task env.segments (outputPathOf task.filename)
            fs key h
          rw [hppt] at this
          exact this
        cases r with
        | error e => exact hp
        | ok u =>
          dsimp only
          have hp3 : audioPathOf key ∈
              (if env.thumbOk = true ∧ outputPathOf task.filename ∈ fs2 then
                fsAdd fs2 (thumbPathOf task.filename) else fs2) := by
            by_cases h3 : env.thumbOk = true ∧ outputPathOf task.filename ∈ fs2
            · rw [if_pos h3]
              exact mem_fsAdd_of_mem hp
            · rw [if_neg h3]
              exact hp
          by_cases h4 : outputPathOf task.filename ∈
              (if env.thumbOk = true ∧ outputPathOf task.filename ∈ fs2 then
                fsAdd fs2 (thumbPathOf task.filename) else fs2)
          · rw [if_pos h4]
            by_cases h5 : env.uploadOk = true
            · rw [if_pos h5]
              exact hp3
            · rw [if_neg h5]
              exact hp3
          · rw [if_neg h4]
            exact hp3

/-- The worker's closing clean_up never removes an audio file, and always
removes the map file and the downloaded input. -/
theorem workerFinish_facts (task : TaskData) (r : Except String Unit × List String) :
    mapFilePath task.user_id task.timestamp ∉ (workerFinish task r).2 ∧
    inputVideoPath task.user_id ∉ (workerFinish task r).2 ∧
    ∀ key, audioPathOf key ∈ r.2 → audioPathOf key ∈ (workerFinish task r).2 := by
  obtain ⟨res, fs⟩ := r
  cases res with
  | ok u =>
    refine ⟨?_, ?_, ?_⟩
    · intro hmem
      exact (mem_clean_up.mp hmem).2 (by simp)
    · intro hmem
      exact (mem_clean_up.mp hmem).2 (by simp)
    · intro key h
      refine mem_clean_up.mpr ⟨h, ?_⟩
      intro hq
      simp only [List.mem_cons, List.not_mem_nil, or_false] at hq
      rcases hq with hq | hq | hq | hq
      · exact audio_ne_map key _ _ hq
      · exact audio_ne_input key _ hq
      · exact audio_ne_output key _ hq
      · exact audio_ne_thumb key _ hq
  | error e =>
    refine ⟨?_, ?_, ?_⟩
    · intro hmem
      exact (mem_clean_up.mp hmem).2 (by simp)
    · intro hmem
      exact (mem_clean_up.mp hmem).2 (by simp)
    · intro key h
      refine mem_clean_up.mpr ⟨h, ?_⟩
      intro hq
      simp only [List.mem_cons, List.not_mem_nil, or_false] at hq
      rcases hq with hq | hq
      · exact audio_ne_map key _ _ hq
      · exact audio_ne_input key _ hq

/-- C6 amended: the map file and the downloaded input are removed on every
exit path (success, error, or stop), but the per-segment audio files are
never removed on any path — every audio file present when the job starts
(and, per the counterexample, every audio file the job creates) is still
on disk when the job finishes.  Batch intermediates and the merge manifest
are removed only on paths that reach the merge step. -/
theorem C6_amended (env : WorkerEnv) (task : TaskData) (fs0 : List String) :
    mapFilePath task.user_id task.timestamp ∉ (queue_worker_once env task fs0).2 ∧
    inputVideoPath task.user_id ∉ (queue_worker_once env task fs0).2 ∧
    ∀ key, audioPathOf key ∈ fs0 → audioPathOf key ∈ (queue_worker_once env task fs0).2 := by
  unfold queue_worker_once
  have hpres : ∀ key, audioPathOf key ∈ fs0 → audioPathOf key ∈
      (if task.fromLink = true then
        if env.dlSucceeds = true then
          workerAfterDl env task (fsAdd fs0 (inputVideoPath task.user_id))
        else (Except.error "Download failed.",
              if env.dlLeavesFile = true then fsAdd fs0 (inputVideoPath task.user_id) else fs0)
      else
        if env.tgDlOk = true then
          workerAfterDl env task (fsAdd fs0 (inputVideoPath task.user_id))
        else (Except.error "Telegram download error", fs0)).2 := by
    intro key h
    by_cases h1 : task.fromLink = true
    · rw [if_pos h1]
      by_cases h2 : env.dlSucceeds = true
      · rw [if_pos h2]
        exact workerAfterDl_preserves_audio _ _ _ _ (mem_fsAdd_of_mem h)
      · rw [if_neg h2]
        by_cases h3 : env.dlLeavesFile = true
        · simp only [if_pos h3]
          exact mem_fsAdd_of_mem h
        · simp only [if_neg h3]
          exact h
    · rw [if_neg h1]
      by_cases h2 : env.tgDlOk = true
      · rw [if_pos h2]
        exact workerAfterDl_preserves_audio _ _ _ _ (mem_fsAdd_of_mem h)
      · rw [if_neg h2]
        exact h
  obtain ⟨hm, hi, ha⟩ := workerFinish_facts task
    (if task.fromLink = true then
      if env.dlSucceeds = true then
        workerAfterDl env task (fsAdd fs0 (inputVideoPath task.user_id))
      else (Except.error "Download failed.",
            if env.dlLeavesFile = true then fsAdd fs0 (inputVideoPath task.user_id) else fs0)
    else
      if env.tgDlOk = true then
        workerAfterDl env task (fsAdd fs0 (inputVideoPath task.user_id))
      else (Except.error "Telegram download error", fs0))
  exact ⟨hm, hi, fun key h => ha key (hpres key h)⟩

/-- C6 witness: a pre-existing cached audio file survives a successful
job, while the job's map file and input are removed. -/
theorem C6_amended_witness :
    mapFilePath 1 10 ∉ (queue_worker_once
      ⟨⟨⟨fun _ => true, fun _ => 5, fun _ => false, fun _ => true⟩, none, none,
        fun _ => false, 0, true⟩,
      [⟨some "1", some "0:00", some "0:05", some "hi"⟩],
      true, true, false, false, true, false, true, true⟩
      ⟨1, 10, "out", false⟩ [audioPathOf "7"]).2 ∧
    inputVideoPath 1 ∉ (queue_worker_once
      ⟨⟨⟨fun _ => true, fun _ => 5, fun _ => false, fun _ => true⟩, none, none,
        fun _ => false, 0, true⟩,
      [⟨some "1", some "0:00", some "0:05", some "hi"⟩],
      true, true, false, false, true, false, true, true⟩
      ⟨1, 10, "out", false⟩ [audioPathOf "7"]).2 ∧
    ∀ key, audioPathOf key ∈ [audioPathOf "7"] → audioPathOf key ∈ (queue_worker_once
      ⟨⟨⟨fun _ => true, fun _ => 5, fun _ => false, fun _ => true⟩, none, none,
        fun _ => false, 0, true⟩,
      [⟨some "1", some "0:00", some "0:05", some "hi"⟩],
      true, true, false, false, true, false, true, true⟩
      ⟨1, 10, "out", false⟩ [audioPathOf "7"]).2 :=
  C6_amended _ _ _

end Videdit
